import Mathlib

/-!
# Map-feature styling resolver (`drape_frontend/stylist.cpp`)

A shallow embedding of the styling resolver: the category bit mask and its
membership test `IsTypeOf`, the priority `Aggregator`, the caption resolver
`CaptionDescription`, the `Stylist` result object and the two entry points
`InitStylist` and `GetFeaturePriority`.

Conventions of the embedding.

* A C++ `double` is an exact rational (`ℚ`); rounding, infinities and NaN are
  not represented. Every concrete input used below is exactly representable,
  and a strict order between two depths is stated only where the gap between
  them is too large to be lost to rounding.
* A `std::string` is a list of characters, one per C++ `char`.
* A pointer to a rule is the rule itself, a null pointer is `none`.
* A failed `ASSERT`, like the dereference of a null rule pointer, ends the
  computation: the functions that can reach one return an `Option`, and `none`
  is that fatal outcome.
* The feature accessor, the rule database and the constants of `feature::`,
  `drule::` and `scales::` are declared outside `stylist.cpp`; they are fields
  of `FeatureType`, `BaseRule` and `Env`, so every theorem holds for all of
  their values.
-/

namespace df

/-- A `std::string`: the sequence of its `char`s. -/
abbrev string := List Char

namespace m2

/-- Modelled from the spec: the limit rectangle (`m2::RectD`), of which the
resolver reads the width and the height only. -/
structure RectD where
  minX : ℚ
  minY : ℚ
  maxX : ℚ
  maxY : ℚ

/-- Width of the rectangle. -/
def RectD.SizeX (r : RectD) : ℚ := r.maxX - r.minX

/-- Height of the rectangle. -/
def RectD.SizeY (r : RectD) : ℚ := r.maxY - r.minY

end m2

namespace feature

/-- Modelled from the spec: the geometry type codes (`feature::EGeomType`);
`GEOM_UNDEFINED` stands for every code that is not point, line or area. -/
inductive EGeomType
  | GEOM_UNDEFINED
  | GEOM_POINT
  | GEOM_LINE
  | GEOM_AREA
  deriving DecidableEq, Repr

end feature

/-- Modelled from the spec: the read-only feature accessor (section 6 of the
specification). Each field is the value the accessor of that name returns. -/
structure FeatureType where
  GetLayer : Int
  GetPopulation : Nat
  GetLimitRect : Int → m2.RectD
  GetPreferredNames : string × string
  GetReadableName : string
  GetRoadNumber : string
  GetHouseNumber : string

namespace feature

/-- The holder `feature::TypesHolder types(f)` built from a feature. -/
structure TypesHolder where
  m_f : FeatureType

end feature

namespace drule

/-- Modelled from the spec: the rule categories (`drule::rule_type_t`). -/
inductive rule_type_t
  | line
  | area
  | symbol
  | caption
  | circle
  | pathtext
  | waymarker
  | shield
  | count_of_rules
  deriving DecidableEq, Repr

/-- Modelled from the spec: the text-slot type (`drule::text_type_t`), an
enumeration with the two named values below. -/
abbrev text_type_t := Nat

/-- The text slot shows the name. -/
abbrev text_type_name : text_type_t := 0

/-- The text slot shows the house number. -/
abbrev text_type_housenumber : text_type_t := 1

/-- Modelled from the spec: a rule key (`drule::Key`), with the two fields the
resolver reads: the category and the base priority. -/
structure Key where
  m_type : rule_type_t
  m_priority : ℚ

/-- Modelled from the spec: a drawing rule (`drule::BaseRule`) as the resolver
sees it: the runtime predicate, the caption of a slot (`none` for a null
pointer) and the text type of a slot. -/
structure BaseRule where
  TestFeature : FeatureType → Int → Bool
  GetCaption : Nat → Option Unit
  GetCaptionTextType : Nat → text_type_t

/-- The sequence of keys `drule::KeysT`. -/
abbrev KeysT := List Key

end drule

/-- Modelled from the spec: what `stylist.cpp` consumes from outside: the layer
constants of `feature::`, `drule::layer_base_priority`,
`scales::GetUpperWorldScale()`, the rule database (`Find`, `GetDrawRule`,
`MakeUnique`) and the two building checkers of `ftypes::`. `GetDrawRule` gives
the pair (geometry type code, coastline flag) and the keys it writes to its
output parameter; the code is given as the `EGeomType` it is cast to. -/
structure Env where
  LAYER_EMPTY : Int
  LAYER_TRANSPARENT_TUNNEL : Int
  layer_base_priority : ℚ
  GetUpperWorldScale : Int
  Find : drule.Key → Option drule.BaseRule
  GetDrawRule : feature.TypesHolder → Int → (feature.EGeomType × Bool) × drule.KeysT
  MakeUnique : drule.KeysT → drule.KeysT
  IsBuildingPartChecker : feature.TypesHolder → Bool
  IsBuildingChecker : feature.TypesHolder → Bool

/-! ## The category bit mask (`enum Type`) -/

/-- Bit of the line category. -/
abbrev Line : Nat := 1
/-- Bit of the area category. -/
abbrev Area : Nat := Line <<< 1
/-- Bit of the symbol category. -/
abbrev Symbol : Nat := Area <<< 1
/-- Bit of the caption category. -/
abbrev Caption : Nat := Symbol <<< 1
/-- Bit of the circle category. -/
abbrev Circle : Nat := Caption <<< 1
/-- Bit of the path-text category. -/
abbrev PathText : Nat := Circle <<< 1
/-- Bit of the waymarker category. -/
abbrev Waymarker : Nat := PathText <<< 1
/-- Bit of the shield category. -/
abbrev Shield : Nat := Waymarker <<< 1
/-- The loop bound of `IsTypeOf`, `PathText + 1` in the source. -/
abbrev CountOfType : Nat := PathText + 1

/-- The rule category of a category bit (`Convert`); any other value gives
`count_of_rules`. -/
def Convert (t : Nat) : drule.rule_type_t :=
  if t = Line then drule.rule_type_t.line
  else if t = Area then drule.rule_type_t.area
  else if t = Symbol then drule.rule_type_t.symbol
  else if t = Caption then drule.rule_type_t.caption
  else if t = Circle then drule.rule_type_t.circle
  else if t = PathText then drule.rule_type_t.pathtext
  else if t = Waymarker then drule.rule_type_t.waymarker
  else if t = Shield then drule.rule_type_t.shield
  else drule.rule_type_t.count_of_rules

/-- The lowest finite `double`, `numeric_limits<double>::lowest()`. -/
def kMinPriority : ℚ := -((2 : ℚ) ^ 1024 - (2 : ℚ) ^ 971)

/-- The `while` loop of `IsTypeOf`, one iteration per unit of fuel; `none`
when the fuel is used up before the loop ends. -/
def IsTypeOfLoop (key : drule.Key) (flags : Nat) : Nat → Nat → Option Bool
  | 0, _ => none
  | fuel + 1, currentFlag =>
    if currentFlag < CountOfType then
      let type := flags &&& currentFlag
      if type ≠ 0 ∧ key.m_type = Convert type then some true
      else IsTypeOfLoop key flags fuel (currentFlag <<< 1)
    else some false

/-- Whether the category of `key` is one of the categories of the bit mask
`flags`, as the loop decides it. The loop starts at `Line` and doubles the
flag while it is below `CountOfType`, so `CountOfType` iterations suffice
(`IsTypeOfLoop_terminates`). -/
def IsTypeOf (key : drule.Key) (flags : Nat) : Bool :=
  (IsTypeOfLoop key flags CountOfType Line).getD false

/-- Truncation toward zero of a rational. -/
def trunc (q : ℚ) : Int := if 0 ≤ q then ⌊q⌋ else -⌊-q⌋

/-- The C library remainder `fmod(x, y)` for `y ≠ 0`: `x - n * y` with `n` the
quotient `x / y` truncated toward zero. -/
def fmod (x y : ℚ) : ℚ := x - (trunc (x / y) : ℚ) * y

/-- `IsMiddleTunnel` of the source. -/
def IsMiddleTunnel (env : Env) (layer : Int) (depth : ℚ) : Bool :=
  decide (layer ≠ env.LAYER_EMPTY) && decide (depth < 19000)


/-- The runtime filter: `erase_if` removes the keys whose rule rejects the
feature at the zoom. A key without a rule fails the `ASSERT`. -/
def FilterRulesByRuntimeSelector (env : Env) (f : FeatureType) (zoomLevel : Int) :
    drule.KeysT → Option drule.KeysT
  | [] => some []
  | key :: keys =>
    match env.Find key with
    | none => none
    | some rule =>
      match FilterRulesByRuntimeSelector env f zoomLevel keys with
      | none => none
      | some rest => if !rule.TestFeature f zoomLevel then some rest else some (key :: rest)

/-! ## The priority aggregator -/

/-- The working state of one resolution (`class Aggregator`). -/
structure Aggregator where
  m_pointStyleFound : Bool
  m_lineStyleFound : Bool
  m_auxCaptionFound : Bool
  m_mainTextType : drule.text_type_t
  m_rules : List (drule.BaseRule × ℚ)
  m_f : FeatureType
  m_geomType : feature.EGeomType
  m_zoomLevel : Int
  m_priorityModifier : ℚ
  m_depthLayer : Int

namespace Aggregator

/-- `Aggregator::Init`: the normalised layer and the priority modifier. -/
def Init (env : Env) (a : Aggregator) : Aggregator :=
  let m_depthLayer := a.m_f.GetLayer
  let m_depthLayer :=
    if m_depthLayer = env.LAYER_TRANSPARENT_TUNNEL then env.LAYER_EMPTY else m_depthLayer
  let m_priorityModifier :=
    if a.m_geomType = feature.EGeomType.GEOM_POINT then
      (a.m_f.GetPopulation : ℚ) / 7000000000
    else
      let r := a.m_f.GetLimitRect a.m_zoomLevel
      min 1 (r.SizeX * r.SizeY * 10000)
  { a with m_depthLayer := m_depthLayer, m_priorityModifier := m_priorityModifier }

/-- The constructor of `Aggregator`: the member initialisers, then `Init`.
The two members that `Init` assigns start at zero here. -/
def new (env : Env) (f : FeatureType) (type : feature.EGeomType) (zoomLevel : Int)
    (_keyCount : Nat) : Aggregator :=
  Init env
    { m_pointStyleFound := false
      m_lineStyleFound := false
      m_auxCaptionFound := false
      m_mainTextType := drule.text_type_name
      m_rules := []
      m_f := f
      m_geomType := type
      m_zoomLevel := zoomLevel
      m_priorityModifier := 0
      m_depthLayer := 0 }

/-- `Aggregator::ProcessKey`: the depth of one key, the rule and depth appended
to `m_rules`, the main text type and the auxiliary-caption flag. The rule
pointer is dereferenced, so a key without a rule is fatal. -/
def ProcessKey (env : Env) (a : Aggregator) (key : drule.Key) : Option Aggregator :=
  let depth : ℚ := key.m_priority
  let depth : ℚ :=
    if IsMiddleTunnel env a.m_depthLayer depth && IsTypeOf key (Line ||| Area ||| Waymarker) then
      let layerPart : ℚ := (a.m_depthLayer : ℚ) * env.layer_base_priority
      let depthPart : ℚ := fmod depth env.layer_base_priority
      layerPart + depthPart
    else depth
  let depth : ℚ :=
    if IsTypeOf key (Caption ||| Symbol ||| Circle ||| PathText) then
      let depth := depth + a.m_priorityModifier
      if a.m_geomType = feature.EGeomType.GEOM_POINT then depth + 1 else depth
    else if IsTypeOf key Area then depth - a.m_priorityModifier
    else depth
  match env.Find key with
  | none => none
  | some dRule =>
    let a := { a with m_rules := a.m_rules ++ [(dRule, depth)] }
    let a :=
      if (dRule.GetCaption 0).isSome then
        { a with m_mainTextType := dRule.GetCaptionTextType 0 }
      else a
    some { a with m_auxCaptionFound := a.m_auxCaptionFound || (dRule.GetCaption 1).isSome }

/-- `Aggregator::AggregateKeys`: `ProcessKey` on every key in order. -/
def AggregateKeys (env : Env) (a : Aggregator) : drule.KeysT → Option Aggregator
  | [] => some a
  | key :: keys =>
    match ProcessKey env a key with
    | none => none
    | some a => AggregateKeys env a keys

/-- `Aggregator::AggregateStyleFlags`: the point and line style flags. -/
def AggregateStyleFlags (a : Aggregator) (keys : drule.KeysT) (nameExists : Bool) :
    Aggregator :=
  keys.foldl
    (fun a key =>
      let isNonEmptyCaption := IsTypeOf key Caption && nameExists
      let a :=
        { a with m_pointStyleFound :=
            a.m_pointStyleFound || (IsTypeOf key (Symbol ||| Circle) || isNonEmptyCaption) }
      { a with m_lineStyleFound := a.m_lineStyleFound || IsTypeOf key Line })
    a

end Aggregator

/-- The depth `ProcessKey` computes for a key in the state `a`: the value of the
local `depth` after the two `if` statements of `ProcessKey`, written as there. -/
def Aggregator.depthOf (env : Env) (a : Aggregator) (key : drule.Key) : ℚ :=
  let depth : ℚ := key.m_priority
  let depth : ℚ :=
    if IsMiddleTunnel env a.m_depthLayer depth && IsTypeOf key (Line ||| Area ||| Waymarker) then
      let layerPart : ℚ := (a.m_depthLayer : ℚ) * env.layer_base_priority
      let depthPart : ℚ := fmod depth env.layer_base_priority
      layerPart + depthPart
    else depth
  if IsTypeOf key (Caption ||| Symbol ||| Circle ||| PathText) then
    let depth := depth + a.m_priorityModifier
    if a.m_geomType = feature.EGeomType.GEOM_POINT then depth + 1 else depth
  else if IsTypeOf key Area then depth - a.m_priorityModifier
  else depth

/-- The members `Init` sets and the geometry type, the part of the state the
depth of a key depends on. -/
def Aggregator.depthState (a : Aggregator) : Int × ℚ × feature.EGeomType :=
  (a.m_depthLayer, a.m_priorityModifier, a.m_geomType)

/-- Bit of the coastline flag. -/
abbrev CoastlineFlag : Nat := 1
/-- Bit of the area style flag. -/
abbrev AreaStyleFlag : Nat := 1 <<< 1
/-- Bit of the line style flag. -/
abbrev LineStyleFlag : Nat := 1 <<< 2
/-- Bit of the point style flag. -/
abbrev PointStyleFlag : Nat := 1 <<< 3

/-! ## The caption resolver -/

/-- The four texts of a feature (`class CaptionDescription`). -/
structure CaptionDescription where
  m_mainText : string
  m_auxText : string
  m_roadNumber : string
  m_houseNumber : string
  deriving DecidableEq, Repr

/-- Whether `needle` starts `hay`. -/
def startsWith : string → string → Bool
  | _, [] => true
  | [], _ :: _ => false
  | c :: hay, d :: needle => c == d && startsWith hay needle

/-- The position `std::string::find` returns: the first index at which
`needle` occurs in `hay`, `none` for `npos`. -/
def find (hay needle : string) : Option Nat :=
  if startsWith hay needle then some 0
  else
    match hay with
    | [] => none
    | _ :: rest => (find rest needle).map (· + 1)

namespace CaptionDescription

/-- A default-constructed caption description: four empty strings. -/
def new : CaptionDescription :=
  { m_mainText := [], m_auxText := [], m_roadNumber := [], m_houseNumber := [] }

/-- `CaptionDescription::ProcessZoomLevel`. -/
def ProcessZoomLevel (env : Env) (c : CaptionDescription) (zoomLevel : Int) :
    CaptionDescription :=
  let c :=
    if zoomLevel ≤ env.GetUpperWorldScale ∧ ¬ c.m_auxText.isEmpty then
      { c with m_auxText := [] }
    else c
  if zoomLevel < 5 ∧ c.m_mainText.length > 50 then { c with m_mainText := [] } else c

/-- `CaptionDescription::ProcessMainTextType`. -/
def ProcessMainTextType (c : CaptionDescription) (mainTextType : drule.text_type_t) :
    CaptionDescription :=
  if mainTextType = drule.text_type_housenumber then
    { c with m_mainText := c.m_houseNumber, m_houseNumber := [] }
  else if mainTextType = drule.text_type_name then
    if ¬ c.m_houseNumber.isEmpty then
      if c.m_mainText.isEmpty ∨ find c.m_houseNumber c.m_mainText ≠ none then
        { c with m_houseNumber := c.m_mainText, m_mainText := c.m_houseNumber }
      else c
    else c
  else c

/-- `CaptionDescription::Init`. The two name getters write their output
parameters; `GetReadableName` leaves the auxiliary text as it was. -/
def Init (env : Env) (c : CaptionDescription) (f : FeatureType) (zoomLevel : Int)
    (type : feature.EGeomType) (mainTextType : drule.text_type_t) (auxCaptionExists : Bool) :
    CaptionDescription :=
  let c :=
    if auxCaptionExists ∨ type = feature.EGeomType.GEOM_LINE then
      { c with m_mainText := f.GetPreferredNames.1, m_auxText := f.GetPreferredNames.2 }
    else
      { c with m_mainText := f.GetReadableName }
  let c := { c with m_roadNumber := f.GetRoadNumber }
  let c := { c with m_houseNumber := f.GetHouseNumber }
  let c := ProcessZoomLevel env c zoomLevel
  ProcessMainTextType c mainTextType

/-- `CaptionDescription::GetMainText`. -/
def GetMainText (c : CaptionDescription) : string := c.m_mainText

/-- `CaptionDescription::GetAuxText`. -/
def GetAuxText (c : CaptionDescription) : string := c.m_auxText

/-- `CaptionDescription::GetRoadNumber`. -/
def GetRoadNumber (c : CaptionDescription) : string := c.m_roadNumber

/-- `CaptionDescription::GetPathName`. -/
def GetPathName (c : CaptionDescription) : string :=
  if c.m_mainText.isEmpty then c.m_mainText
  else c.m_mainText ++ [' ', ' ', ' '] ++ c.m_auxText

/-- `CaptionDescription::IsNameExists`. -/
def IsNameExists (c : CaptionDescription) : Bool :=
  !c.m_mainText.isEmpty || !c.m_houseNumber.isEmpty

end CaptionDescription

/-! ## The result object and the entry points -/

/-- The result of a styling request (`class Stylist`): the flag bits, the
caption description and the (rule, depth) pairs. -/
structure Stylist where
  m_state : Nat
  m_captionDescriptor : CaptionDescription
  m_rules : List (drule.BaseRule × ℚ)

namespace Stylist

/-- The constructor `Stylist::Stylist`: no flag, default members. -/
def new : Stylist :=
  { m_state := 0, m_captionDescriptor := CaptionDescription.new, m_rules := [] }

/-- `Stylist::IsCoastLine`. -/
def IsCoastLine (s : Stylist) : Bool := s.m_state &&& CoastlineFlag != 0

/-- `Stylist::AreaStyleExists`. -/
def AreaStyleExists (s : Stylist) : Bool := s.m_state &&& AreaStyleFlag != 0

/-- `Stylist::LineStyleExists`. -/
def LineStyleExists (s : Stylist) : Bool := s.m_state &&& LineStyleFlag != 0

/-- `Stylist::PointStyleExists`. -/
def PointStyleExists (s : Stylist) : Bool := s.m_state &&& PointStyleFlag != 0

/-- `Stylist::GetCaptionDescription`. -/
def GetCaptionDescription (s : Stylist) : CaptionDescription := s.m_captionDescriptor

/-- `Stylist::ForEachRule`: the callback, which may update a state of the
caller, on every pair from first to last. -/
def ForEachRule {σ : Type} (s : Stylist) (fn : drule.BaseRule × ℚ → σ → σ) (st : σ) : σ :=
  s.m_rules.foldl (fun st rule => fn rule st) st

/-- `Stylist::IsEmpty`. -/
def IsEmpty (s : Stylist) : Bool := s.m_rules.isEmpty

/-- `Stylist::RaiseCoastlineFlag`. -/
def RaiseCoastlineFlag (s : Stylist) : Stylist := { s with m_state := s.m_state ||| CoastlineFlag }

/-- `Stylist::RaiseAreaStyleFlag`. -/
def RaiseAreaStyleFlag (s : Stylist) : Stylist := { s with m_state := s.m_state ||| AreaStyleFlag }

/-- `Stylist::RaiseLineStyleFlag`. -/
def RaiseLineStyleFlag (s : Stylist) : Stylist := { s with m_state := s.m_state ||| LineStyleFlag }

/-- `Stylist::RaisePointStyleFlag`. -/
def RaisePointStyleFlag (s : Stylist) : Stylist :=
  { s with m_state := s.m_state ||| PointStyleFlag }

end Stylist

/-- The check `ASSERT(c, ())`: nothing when `c` holds, the fatal outcome
otherwise. -/
def ASSERT (c : Bool) : Option Unit := if c then some () else none

/-- `InitStylist`: the returned boolean and the `Stylist` the reference
parameter `s` holds afterwards. -/
def InitStylist (env : Env) (f : FeatureType) (zoomLevel : Int) (buildings3d : Bool)
    (s : Stylist) : Option (Bool × Stylist) :=
  let types : feature.TypesHolder := ⟨f⟩
  if !buildings3d && env.IsBuildingPartChecker types && !env.IsBuildingChecker types then
    some (false, s)
  else
    let geomType : feature.EGeomType × Bool := (env.GetDrawRule types zoomLevel).1
    match FilterRulesByRuntimeSelector env f zoomLevel (env.GetDrawRule types zoomLevel).2 with
    | none => none
    | some keys =>
      if keys.isEmpty then some (false, s)
      else
        let keys := env.MakeUnique keys
        let s := if geomType.2 then s.RaiseCoastlineFlag else s
        let mainGeomType := geomType.1
        let raised : Option Stylist :=
          match mainGeomType with
          | feature.EGeomType.GEOM_POINT => some s.RaisePointStyleFlag
          | feature.EGeomType.GEOM_LINE => some s.RaiseLineStyleFlag
          | feature.EGeomType.GEOM_AREA => some s.RaiseAreaStyleFlag
          | _ => none
        match raised with
        | none => (ASSERT false).bind fun _ => some (false, s)
        | some s =>
          match Aggregator.AggregateKeys env
              (Aggregator.new env f mainGeomType zoomLevel keys.length) keys with
          | none => none
          | some aggregator =>
            let descr := CaptionDescription.Init env s.m_captionDescriptor f zoomLevel
              mainGeomType aggregator.m_mainTextType aggregator.m_auxCaptionFound
            let s := { s with m_captionDescriptor := descr }
            let aggregator := aggregator.AggregateStyleFlags keys descr.IsNameExists
            let s := if aggregator.m_pointStyleFound then s.RaisePointStyleFlag else s
            let s := if aggregator.m_lineStyleFound then s.RaiseLineStyleFlag else s
            some (true, { s with m_rules := aggregator.m_rules })

/-- `GetFeaturePriority`: the running maximum of the depths, from
`kMinPriority`. -/
def GetFeaturePriority (env : Env) (f : FeatureType) (zoomLevel : Int) : Option ℚ :=
  let geomType : feature.EGeomType × Bool := (env.GetDrawRule ⟨f⟩ zoomLevel).1
  match FilterRulesByRuntimeSelector env f zoomLevel (env.GetDrawRule ⟨f⟩ zoomLevel).2 with
  | none => none
  | some keys =>
    let mainGeomType := geomType.1
    match Aggregator.AggregateKeys env
        (Aggregator.new env f mainGeomType zoomLevel keys.length) keys with
    | none => none
    | some aggregator =>
      some (aggregator.m_rules.foldl
        (fun maxPriority rule => if rule.2 > maxPriority then rule.2 else maxPriority)
        kMinPriority)

/-! ## Concrete inputs -/

/-- A rule without captions that accepts every feature. -/
def plainRule : drule.BaseRule :=
  { TestFeature := fun _ _ => true, GetCaption := fun _ => none,
    GetCaptionTextType := fun _ => drule.text_type_name }

/-- A rule database in which every key has the rule `plainRule`, with the
constants layer empty 0, transparent tunnel 11, layer base priority 2000 and
upper world scale 9; `GetDrawRule` gives an area geometry, no coastline, and
the keys area at priority 50 and caption at priority 100. -/
def sampleEnv : Env :=
  { LAYER_EMPTY := 0
    LAYER_TRANSPARENT_TUNNEL := 11
    layer_base_priority := 2000
    GetUpperWorldScale := 9
    Find := fun _ => some plainRule
    GetDrawRule := fun _ _ =>
      ((feature.EGeomType.GEOM_AREA, false),
        [⟨drule.rule_type_t.area, 50⟩, ⟨drule.rule_type_t.caption, 100⟩])
    MakeUnique := fun keys => keys
    IsBuildingPartChecker := fun _ => false
    IsBuildingChecker := fun _ => false }

/-- A rule without captions that rejects every feature. -/
def rejectRule : drule.BaseRule :=
  { TestFeature := fun _ _ => false, GetCaption := fun _ => none,
    GetCaptionTextType := fun _ => drule.text_type_name }

/-- A rule database like `sampleEnv` in which every key has the rule
`rejectRule` and `GetDrawRule` flags the feature as coastline. -/
def coastEnv : Env :=
  { sampleEnv with
    Find := fun _ => some rejectRule
    GetDrawRule := fun _ _ =>
      ((feature.EGeomType.GEOM_AREA, true), [⟨drule.rule_type_t.area, 50⟩]) }

/-- A rule with a caption at slot 0 only, of text type house number, that
accepts every feature. -/
def houseNumberRule : drule.BaseRule :=
  { TestFeature := fun _ _ => true
    GetCaption := fun slot => if slot = 0 then some () else none
    GetCaptionTextType := fun _ => drule.text_type_housenumber }

/-- A rule database like `sampleEnv` in which the caption keys have the rule
`houseNumberRule` and every other key has `plainRule`. -/
def houseNumberEnv : Env :=
  { sampleEnv with
    Find := fun key =>
      if key.m_type = drule.rule_type_t.caption then some houseNumberRule else some plainRule }

/-- A feature without names on the given layer, with the given population and
a limit rectangle of the given width and height at every zoom. -/
def sampleFeature (layer : Int) (population : Nat) (w h : ℚ) : FeatureType :=
  { GetLayer := layer
    GetPopulation := population
    GetLimitRect := fun _ => { minX := 0, minY := 0, maxX := w, maxY := h }
    GetPreferredNames := ([], [])
    GetReadableName := []
    GetRoadNumber := []
    GetHouseNumber := [] }

/-! # Theorems -/

open drule feature

/-! ## The membership test -/

/-- The loop of `IsTypeOf` ends within its fuel whenever the flag is positive
and the fuel exceeds the distance of the flag to `CountOfType`. -/
theorem IsTypeOfLoop_isSome (key : Key) (flags : Nat) :
    ∀ fuel currentFlag : Nat, 0 < currentFlag → CountOfType - currentFlag < fuel →
      (IsTypeOfLoop key flags fuel currentFlag).isSome = true := by
  intro fuel
  induction fuel with
  | zero => intro currentFlag _ h; omega
  | succ n ih =>
    intro currentFlag hpos hfuel
    unfold IsTypeOfLoop
    by_cases hlt : currentFlag < CountOfType
    · by_cases hhit : (flags &&& currentFlag ≠ 0 ∧ key.m_type = Convert (flags &&& currentFlag))
      · simp [hlt, hhit]
      · simp only [hlt, hhit, if_true, if_false]
        apply ih
        · rw [Nat.shiftLeft_eq]; omega
        · rw [Nat.shiftLeft_eq]; omega
    · simp [hlt]

/-- The loop of `IsTypeOf` ends before its fuel does, for every key and mask. -/
theorem IsTypeOfLoop_terminates (key : Key) (flags : Nat) :
    (IsTypeOfLoop key flags CountOfType Line).isSome = true :=
  IsTypeOfLoop_isSome key flags CountOfType Line (by decide) (by decide)

/-- With the mask line, area, waymarker the test holds for line and area keys
only: the loop stops below `CountOfType` and never reaches the waymarker bit. -/
theorem IsTypeOf_fold_mask (key : Key) :
    IsTypeOf key (Line ||| Area ||| Waymarker) =
      decide (key.m_type = rule_type_t.line ∨ key.m_type = rule_type_t.area) := by
  obtain ⟨t, p⟩ := key
  cases t <;> rfl

/-- With the mask caption, symbol, circle, path text the test holds for
exactly these four categories. -/
theorem IsTypeOf_caption_mask (key : Key) :
    IsTypeOf key (Caption ||| Symbol ||| Circle ||| PathText) =
      decide (key.m_type = rule_type_t.caption ∨ key.m_type = rule_type_t.symbol ∨
        key.m_type = rule_type_t.circle ∨ key.m_type = rule_type_t.pathtext) := by
  obtain ⟨t, p⟩ := key
  cases t <;> rfl

/-- With the mask area the test holds for area keys only. -/
theorem IsTypeOf_area_mask (key : Key) :
    IsTypeOf key Area = decide (key.m_type = rule_type_t.area) := by
  obtain ⟨t, p⟩ := key
  cases t <;> rfl


/-! ## The aggregator: what `ProcessKey` keeps and what it records -/

/-- The normalised layer an aggregator starts with. -/
theorem Aggregator.new_depthLayer (env : Env) (f : FeatureType) (type : EGeomType)
    (zoomLevel : Int) (keyCount : Nat) :
    (Aggregator.new env f type zoomLevel keyCount).m_depthLayer =
      if f.GetLayer = env.LAYER_TRANSPARENT_TUNNEL then env.LAYER_EMPTY else f.GetLayer := rfl

/-- The priority modifier an aggregator starts with. -/
theorem Aggregator.new_priorityModifier (env : Env) (f : FeatureType) (type : EGeomType)
    (zoomLevel : Int) (keyCount : Nat) :
    (Aggregator.new env f type zoomLevel keyCount).m_priorityModifier =
      if type = EGeomType.GEOM_POINT then (f.GetPopulation : ℚ) / 7000000000
      else min 1 ((f.GetLimitRect zoomLevel).SizeX * (f.GetLimitRect zoomLevel).SizeY * 10000) :=
  rfl

/-- The geometry type an aggregator starts with. -/
theorem Aggregator.new_geomType (env : Env) (f : FeatureType) (type : EGeomType)
    (zoomLevel : Int) (keyCount : Nat) :
    (Aggregator.new env f type zoomLevel keyCount).m_geomType = type := rfl

/-- `ProcessKey` leaves the layer, the modifier and the geometry type alone. -/
theorem Aggregator.ProcessKey_depthState (env : Env) (a a' : Aggregator) (key : Key)
    (h : Aggregator.ProcessKey env a key = some a') : a'.depthState = a.depthState := by
  unfold Aggregator.ProcessKey at h
  cases hf : env.Find key with
  | none => simp [hf] at h
  | some dRule =>
    simp only [hf, Option.some.injEq] at h
    subst h
    split_ifs <;> rfl

/-- `AggregateKeys` leaves the layer, the modifier and the geometry type alone. -/
theorem Aggregator.AggregateKeys_depthState (env : Env) (keys : KeysT) :
    ∀ a a' : Aggregator, Aggregator.AggregateKeys env a keys = some a' →
      a'.depthState = a.depthState := by
  induction keys with
  | nil => intro a a' h; simp [Aggregator.AggregateKeys] at h; rw [h]
  | cons key keys ih =>
    intro a a' h
    unfold Aggregator.AggregateKeys at h
    cases hp : Aggregator.ProcessKey env a key with
    | none => simp [hp] at h
    | some b =>
      simp only [hp] at h
      rw [ih b a' h, Aggregator.ProcessKey_depthState env a b key hp]

/-- The depth `ProcessKey` computes for a key, as a function of the layer,
the modifier and the geometry type: the two `if` statements of the source. -/
theorem Aggregator.ProcessKey_rules (env : Env) (a : Aggregator) (key : Key) (dRule : BaseRule)
    (hfind : env.Find key = some dRule) :
    ∃ a', Aggregator.ProcessKey env a key = some a' ∧
      a'.m_rules = a.m_rules ++
        [(dRule,
          (if IsTypeOf key (Caption ||| Symbol ||| Circle ||| PathText) then
              (if a.m_geomType = EGeomType.GEOM_POINT then
                (if IsMiddleTunnel env a.m_depthLayer key.m_priority &&
                    IsTypeOf key (Line ||| Area ||| Waymarker) then
                  (a.m_depthLayer : ℚ) * env.layer_base_priority +
                    fmod key.m_priority env.layer_base_priority
                else key.m_priority) + a.m_priorityModifier + 1
              else
                (if IsMiddleTunnel env a.m_depthLayer key.m_priority &&
                    IsTypeOf key (Line ||| Area ||| Waymarker) then
                  (a.m_depthLayer : ℚ) * env.layer_base_priority +
                    fmod key.m_priority env.layer_base_priority
                else key.m_priority) + a.m_priorityModifier)
            else if IsTypeOf key Area then
              (if IsMiddleTunnel env a.m_depthLayer key.m_priority &&
                  IsTypeOf key (Line ||| Area ||| Waymarker) then
                (a.m_depthLayer : ℚ) * env.layer_base_priority +
                  fmod key.m_priority env.layer_base_priority
              else key.m_priority) - a.m_priorityModifier
            else
              (if IsMiddleTunnel env a.m_depthLayer key.m_priority &&
                  IsTypeOf key (Line ||| Area ||| Waymarker) then
                (a.m_depthLayer : ℚ) * env.layer_base_priority +
                  fmod key.m_priority env.layer_base_priority
              else key.m_priority)))] := by
  unfold Aggregator.ProcessKey
  simp only [hfind]
  refine ⟨_, rfl, ?_⟩
  split_ifs <;> rfl


/-! ## Depth of a key, by category -/

/-- C1. Layer folding for line rules. On a feature whose layer is neither the
empty nor the transparent-tunnel layer (its normalised layer is non-empty),
at any point of the aggregation, `ProcessKey` on a line key with base priority
below 19000 records the depth `layer * layer_base_priority +
fmod (priority, layer_base_priority)`, with no modifier added or subtracted. -/
theorem C1_line_rule_depth_is_folded (env : Env) (f : FeatureType) (type : EGeomType)
    (zoomLevel : Int) (keyCount : Nat) (done : KeysT) (a : Aggregator) (key : Key)
    (dRule : BaseRule)
    (hrun : Aggregator.AggregateKeys env (Aggregator.new env f type zoomLevel keyCount) done
      = some a)
    (hnotTunnel : f.GetLayer ≠ env.LAYER_TRANSPARENT_TUNNEL)
    (hnotEmpty : f.GetLayer ≠ env.LAYER_EMPTY)
    (hline : key.m_type = rule_type_t.line)
    (hprio : key.m_priority < 19000)
    (hfind : env.Find key = some dRule) :
    ∃ a', Aggregator.ProcessKey env a key = some a' ∧
      a'.m_rules = a.m_rules ++
        [(dRule, (f.GetLayer : ℚ) * env.layer_base_priority +
          fmod key.m_priority env.layer_base_priority)] := by
  have hst := Aggregator.AggregateKeys_depthState env done _ a hrun
  simp only [Aggregator.depthState, Prod.mk.injEq, Aggregator.new_depthLayer,
    Aggregator.new_priorityModifier, Aggregator.new_geomType, if_neg hnotTunnel] at hst
  obtain ⟨hl, hm, hg⟩ := hst
  obtain ⟨a', ha', hrules⟩ := Aggregator.ProcessKey_rules env a key dRule hfind
  refine ⟨a', ha', ?_⟩
  rw [hrules]
  simp [IsTypeOf_fold_mask, IsTypeOf_caption_mask, IsTypeOf_area_mask, IsMiddleTunnel, hline,
    hl, hnotEmpty, hprio]

/-- C1, at a concrete input: layer 2, layer base priority 2000 and a line key
of priority 100 give the depth 2 * 2000 + 100 = 4100. -/
theorem C1_line_rule_depth_is_folded_witness :
    ∃ a', Aggregator.ProcessKey sampleEnv
        (Aggregator.new sampleEnv (sampleFeature 2 0 0 0) EGeomType.GEOM_LINE 10 1)
        ⟨rule_type_t.line, 100⟩ = some a' ∧
      a'.m_rules = [(plainRule, 4100)] := by
  have h := C1_line_rule_depth_is_folded sampleEnv (sampleFeature 2 0 0 0) EGeomType.GEOM_LINE
    10 1 [] _ ⟨rule_type_t.line, 100⟩ plainRule rfl (by decide) (by decide) rfl
    (by norm_num) rfl
  obtain ⟨a', h1, h2⟩ := h
  refine ⟨a', h1, ?_⟩
  rw [h2]
  norm_num [Aggregator.new, Aggregator.Init, sampleEnv, sampleFeature, fmod, trunc]


/-- C2. The code at the failing input: on a feature of layer 2 (non-empty
after normalisation), with layer base priority 2000, `ProcessKey` on a
waymarker key of priority 100 records the depth 100, the base priority
unchanged, where folding would give 2 * 2000 + fmod (100, 2000) = 4100. The
waymarker bit is in the mask, but the loop of `IsTypeOf` stops at
`CountOfType = PathText + 1`, below it. -/
theorem C2_waymarker_rule_is_not_folded :
    IsTypeOf ⟨rule_type_t.waymarker, 100⟩ (Line ||| Area ||| Waymarker) = false ∧
    (∃ a', Aggregator.ProcessKey sampleEnv
        (Aggregator.new sampleEnv (sampleFeature 2 0 0 0) EGeomType.GEOM_LINE 10 1)
        ⟨rule_type_t.waymarker, 100⟩ = some a' ∧
      a'.m_rules = [(plainRule, 100)]) ∧
    (2 : ℚ) * sampleEnv.layer_base_priority + fmod 100 sampleEnv.layer_base_priority = 4100 := by
  refine ⟨by decide, ?_, by norm_num [sampleEnv, fmod, trunc]⟩
  obtain ⟨a', ha', hrules⟩ := Aggregator.ProcessKey_rules sampleEnv
    (Aggregator.new sampleEnv (sampleFeature 2 0 0 0) EGeomType.GEOM_LINE 10 1)
    ⟨rule_type_t.waymarker, 100⟩ plainRule rfl
  refine ⟨a', ha', ?_⟩
  rw [hrules]
  simp [IsTypeOf_fold_mask, IsTypeOf_caption_mask, IsTypeOf_area_mask, Aggregator.new,
    Aggregator.Init]

/-- C3. Depth of caption-like rules. For a key of category caption, symbol,
circle or path text, on any layer and at any point of the aggregation,
`ProcessKey` records `priority + population / 7e9 + 1` when the geometry type
is point and `priority + min (1, width * height * 10000)` when it is not. -/
theorem C3_caption_rule_depth (env : Env) (f : FeatureType) (type : EGeomType)
    (zoomLevel : Int) (keyCount : Nat) (done : KeysT) (a : Aggregator) (key : Key)
    (dRule : BaseRule)
    (hrun : Aggregator.AggregateKeys env (Aggregator.new env f type zoomLevel keyCount) done
      = some a)
    (hcaption : key.m_type = rule_type_t.caption ∨ key.m_type = rule_type_t.symbol ∨
      key.m_type = rule_type_t.circle ∨ key.m_type = rule_type_t.pathtext)
    (hfind : env.Find key = some dRule) :
    ∃ a', Aggregator.ProcessKey env a key = some a' ∧
      a'.m_rules = a.m_rules ++
        [(dRule,
          if type = EGeomType.GEOM_POINT then
            key.m_priority + (f.GetPopulation : ℚ) / 7000000000 + 1
          else
            key.m_priority +
              min 1 ((f.GetLimitRect zoomLevel).SizeX * (f.GetLimitRect zoomLevel).SizeY
                * 10000))] := by
  have hst := Aggregator.AggregateKeys_depthState env done _ a hrun
  simp only [Aggregator.depthState, Prod.mk.injEq, Aggregator.new_depthLayer,
    Aggregator.new_priorityModifier, Aggregator.new_geomType] at hst
  obtain ⟨hl, hm, hg⟩ := hst
  obtain ⟨a', ha', hrules⟩ := Aggregator.ProcessKey_rules env a key dRule hfind
  refine ⟨a', ha', ?_⟩
  rw [hrules]
  have hnofold : IsTypeOf key (Line ||| Area ||| Waymarker) = false := by
    rw [IsTypeOf_fold_mask]
    rcases hcaption with h | h | h | h <;> simp [h]
  have hmask : IsTypeOf key (Caption ||| Symbol ||| Circle ||| PathText) = true := by
    rw [IsTypeOf_caption_mask]
    rcases hcaption with h | h | h | h <;> simp [h]
  by_cases hp : type = EGeomType.GEOM_POINT
  · simp [hnofold, hmask, hg, hm, hp]
  · simp [hnofold, hmask, hg, hm, hp]

/-- C3, at the input of the specification: a point feature of population
700,000,000 and a symbol key of priority 100 give the depth 101.1. -/
theorem C3_caption_rule_depth_witness :
    ∃ a', Aggregator.ProcessKey sampleEnv
        (Aggregator.new sampleEnv (sampleFeature 0 700000000 0 0) EGeomType.GEOM_POINT 10 1)
        ⟨rule_type_t.symbol, 100⟩ = some a' ∧
      a'.m_rules = [(plainRule, 1011 / 10)] := by
  have h := C3_caption_rule_depth sampleEnv (sampleFeature 0 700000000 0 0) EGeomType.GEOM_POINT
    10 1 [] _ ⟨rule_type_t.symbol, 100⟩ plainRule rfl (Or.inr (Or.inl rfl)) rfl
  obtain ⟨a', h1, h2⟩ := h
  refine ⟨a', h1, ?_⟩
  rw [h2]
  norm_num [Aggregator.new, Aggregator.Init, sampleFeature]

/-- C5. Depth of area rules on non-point features. On a feature with the
empty layer whose geometry type is not point and whose limit rectangle at the
zoom has width `w` and height `h`, `ProcessKey` on an area key records
`priority - min (1, w * h * 10000)`. -/
theorem C5_area_rule_depth (env : Env) (f : FeatureType) (type : EGeomType)
    (zoomLevel : Int) (keyCount : Nat) (done : KeysT) (a : Aggregator) (key : Key)
    (dRule : BaseRule) (w h : ℚ)
    (hrun : Aggregator.AggregateKeys env (Aggregator.new env f type zoomLevel keyCount) done
      = some a)
    (hnotPoint : type ≠ EGeomType.GEOM_POINT)
    (hempty : f.GetLayer = env.LAYER_EMPTY)
    (hw : (f.GetLimitRect zoomLevel).SizeX = w)
    (hh : (f.GetLimitRect zoomLevel).SizeY = h)
    (harea : key.m_type = rule_type_t.area)
    (hfind : env.Find key = some dRule) :
    ∃ a', Aggregator.ProcessKey env a key = some a' ∧
      a'.m_rules = a.m_rules ++ [(dRule, key.m_priority - min 1 (w * h * 10000))] := by
  have hst := Aggregator.AggregateKeys_depthState env done _ a hrun
  simp only [Aggregator.depthState, Prod.mk.injEq, Aggregator.new_depthLayer,
    Aggregator.new_priorityModifier, Aggregator.new_geomType, if_neg hnotPoint, hw, hh] at hst
  obtain ⟨hl, hm, hg⟩ := hst
  have hl' : a.m_depthLayer = env.LAYER_EMPTY := by
    rw [hl, hempty]; simp
  obtain ⟨a', ha', hrules⟩ := Aggregator.ProcessKey_rules env a key dRule hfind
  refine ⟨a', ha', ?_⟩
  rw [hrules]
  simp [IsTypeOf_caption_mask, IsTypeOf_area_mask, IsMiddleTunnel, harea, hl', hm]

/-- C5, at the input of the specification: a bounding box of 0.1 by 0.1 and an
area key of priority 50 give the modifier 1 and the depth 49. -/
theorem C5_area_rule_depth_witness :
    ∃ a', Aggregator.ProcessKey sampleEnv
        (Aggregator.new sampleEnv (sampleFeature 0 0 (1 / 10) (1 / 10)) EGeomType.GEOM_AREA 10 1)
        ⟨rule_type_t.area, 50⟩ = some a' ∧
      a'.m_rules = [(plainRule, 49)] := by
  have h := C5_area_rule_depth sampleEnv (sampleFeature 0 0 (1 / 10) (1 / 10))
    EGeomType.GEOM_AREA 10 1 [] _ ⟨rule_type_t.area, 50⟩ plainRule (1 / 10) (1 / 10) rfl
    (by decide) rfl (by norm_num [sampleFeature, m2.RectD.SizeX])
    (by norm_num [sampleFeature, m2.RectD.SizeY]) rfl rfl
  obtain ⟨a', h1, h2⟩ := h
  refine ⟨a', h1, ?_⟩
  rw [h2]
  norm_num [Aggregator.new, Aggregator.Init]


/-- C4 fails as stated, at two inputs. On a point feature of layer 2 (layer
base priority 2000) the area key of priority 100 is folded to the depth 4100
while the caption key of priority 100 gets 101. On an area feature with the
empty layer and a limit rectangle of width 0 the modifier is 0 and both keys
get the depth 100. -/
theorem C4_area_below_caption_counterexample :
    (∃ aArea aCaption,
      Aggregator.ProcessKey sampleEnv
        (Aggregator.new sampleEnv (sampleFeature 2 0 0 0) EGeomType.GEOM_POINT 10 2)
        ⟨rule_type_t.area, 100⟩ = some aArea ∧
      Aggregator.ProcessKey sampleEnv
        (Aggregator.new sampleEnv (sampleFeature 2 0 0 0) EGeomType.GEOM_POINT 10 2)
        ⟨rule_type_t.caption, 100⟩ = some aCaption ∧
      aArea.m_rules = [(plainRule, 4100)] ∧ aCaption.m_rules = [(plainRule, 101)] ∧
      ¬ ((4100 : ℚ) < 101)) ∧
    (∃ aArea aCaption,
      Aggregator.ProcessKey sampleEnv
        (Aggregator.new sampleEnv (sampleFeature 0 0 0 1) EGeomType.GEOM_AREA 10 2)
        ⟨rule_type_t.area, 100⟩ = some aArea ∧
      Aggregator.ProcessKey sampleEnv
        (Aggregator.new sampleEnv (sampleFeature 0 0 0 1) EGeomType.GEOM_AREA 10 2)
        ⟨rule_type_t.caption, 100⟩ = some aCaption ∧
      aArea.m_rules = [(plainRule, 100)] ∧ aCaption.m_rules = [(plainRule, 100)] ∧
      ¬ ((100 : ℚ) < 100)) := by
  have e1 : IsTypeOf ⟨rule_type_t.area, 100⟩ (Line ||| Area ||| Waymarker) = true := by decide
  have e2 : IsTypeOf ⟨rule_type_t.area, 100⟩ (Caption ||| Symbol ||| Circle ||| PathText)
      = false := by decide
  have e3 : IsTypeOf ⟨rule_type_t.area, 100⟩ Area = true := by decide
  have e4 : IsTypeOf ⟨rule_type_t.caption, 100⟩ (Line ||| Area ||| Waymarker) = false := by
    decide
  have e5 : IsTypeOf ⟨rule_type_t.caption, 100⟩ (Caption ||| Symbol ||| Circle ||| PathText)
      = true := by decide
  have e6 : ¬ EGeomType.GEOM_AREA = EGeomType.GEOM_POINT := by decide
  constructor
  · obtain ⟨a1, h1, r1⟩ := Aggregator.ProcessKey_rules sampleEnv
      (Aggregator.new sampleEnv (sampleFeature 2 0 0 0) EGeomType.GEOM_POINT 10 2)
      ⟨rule_type_t.area, 100⟩ plainRule rfl
    obtain ⟨a2, h2, r2⟩ := Aggregator.ProcessKey_rules sampleEnv
      (Aggregator.new sampleEnv (sampleFeature 2 0 0 0) EGeomType.GEOM_POINT 10 2)
      ⟨rule_type_t.caption, 100⟩ plainRule rfl
    refine ⟨a1, a2, h1, h2, ?_, ?_, by norm_num⟩
    · rw [r1]
      norm_num [e1, e2, e3, e4, e5, e6, IsMiddleTunnel,
        Aggregator.new, Aggregator.Init, sampleEnv, sampleFeature, fmod, trunc]
    · rw [r2]
      norm_num [e1, e2, e3, e4, e5, e6, IsMiddleTunnel,
        Aggregator.new, Aggregator.Init, sampleEnv, sampleFeature, fmod, trunc]
  · obtain ⟨a1, h1, r1⟩ := Aggregator.ProcessKey_rules sampleEnv
      (Aggregator.new sampleEnv (sampleFeature 0 0 0 1) EGeomType.GEOM_AREA 10 2)
      ⟨rule_type_t.area, 100⟩ plainRule rfl
    obtain ⟨a2, h2, r2⟩ := Aggregator.ProcessKey_rules sampleEnv
      (Aggregator.new sampleEnv (sampleFeature 0 0 0 1) EGeomType.GEOM_AREA 10 2)
      ⟨rule_type_t.caption, 100⟩ plainRule rfl
    refine ⟨a1, a2, h1, h2, ?_, ?_, by norm_num⟩
    · rw [r1]
      norm_num [e1, e2, e3, e4, e5, e6, IsMiddleTunnel,
        Aggregator.new, Aggregator.Init, sampleEnv, sampleFeature, m2.RectD.SizeX,
        m2.RectD.SizeY]
    · rw [r2]
      norm_num [e1, e2, e3, e4, e5, e6, IsMiddleTunnel,
        Aggregator.new, Aggregator.Init, sampleEnv, sampleFeature, m2.RectD.SizeX,
        m2.RectD.SizeY]

/-- C4, amended. On a feature for which the area key is not folded (its layer
is the empty or the transparent-tunnel layer, or the base priority is 19000 or
more) and whose priority modifier is not negative (the geometry type is point,
or the limit rectangle at the zoom has `width * height ≥ 0`), the depth
`ProcessKey` records for an area key is never greater than the depth it
records for a caption or symbol key of the same base priority, at whatever
points of the aggregation the two keys are processed. It is strictly less
when the base priority is below `2 ^ 31` in magnitude and the gap between the
two depths does not rest on a small modifier: the geometry type is point (the
caption depth gets the extra 1) or the modifier is at its cap 1
(`width * height * 10000 ≥ 1`). -/
theorem C4_area_not_above_caption_unfolded (env : Env) (f : FeatureType) (type : EGeomType)
    (zoomLevel : Int) (keyCount : Nat) (done₁ done₂ : KeysT) (a₁ a₂ : Aggregator)
    (areaKey captionKey : Key) (areaRule captionRule : BaseRule)
    (hrun₁ : Aggregator.AggregateKeys env (Aggregator.new env f type zoomLevel keyCount) done₁
      = some a₁)
    (hrun₂ : Aggregator.AggregateKeys env (Aggregator.new env f type zoomLevel keyCount) done₂
      = some a₂)
    (hnofold : f.GetLayer = env.LAYER_EMPTY ∨ f.GetLayer = env.LAYER_TRANSPARENT_TUNNEL ∨
      19000 ≤ areaKey.m_priority)
    (hmod : type = EGeomType.GEOM_POINT ∨
      0 ≤ (f.GetLimitRect zoomLevel).SizeX * (f.GetLimitRect zoomLevel).SizeY)
    (harea : areaKey.m_type = rule_type_t.area)
    (hcaption : captionKey.m_type = rule_type_t.caption ∨ captionKey.m_type = rule_type_t.symbol)
    (hsame : captionKey.m_priority = areaKey.m_priority)
    (hfindArea : env.Find areaKey = some areaRule)
    (hfindCaption : env.Find captionKey = some captionRule) :
    ∃ aArea aCaption dArea dCaption,
      Aggregator.ProcessKey env a₁ areaKey = some aArea ∧
      Aggregator.ProcessKey env a₂ captionKey = some aCaption ∧
      aArea.m_rules = a₁.m_rules ++ [(areaRule, dArea)] ∧
      aCaption.m_rules = a₂.m_rules ++ [(captionRule, dCaption)] ∧
      dArea ≤ dCaption ∧
      (|areaKey.m_priority| < 2 ^ 31 →
        (type = EGeomType.GEOM_POINT ∨
          1 ≤ (f.GetLimitRect zoomLevel).SizeX * (f.GetLimitRect zoomLevel).SizeY * 10000) →
        dArea < dCaption) := by
  have hst₁ := Aggregator.AggregateKeys_depthState env done₁ _ a₁ hrun₁
  have hst₂ := Aggregator.AggregateKeys_depthState env done₂ _ a₂ hrun₂
  simp only [Aggregator.depthState, Prod.mk.injEq, Aggregator.new_depthLayer,
    Aggregator.new_priorityModifier, Aggregator.new_geomType] at hst₁ hst₂
  obtain ⟨hl₁, hm₁, hg₁⟩ := hst₁
  obtain ⟨hl₂, hm₂, hg₂⟩ := hst₂
  obtain ⟨aArea, hpa, hra⟩ := Aggregator.ProcessKey_rules env a₁ areaKey areaRule hfindArea
  obtain ⟨aCaption, hpl, hrl⟩ := Aggregator.ProcessKey_rules env a₂ captionKey captionRule hfindCaption
  refine ⟨aArea, aCaption, _, _, hpa, hpl, hra, hrl, ?_⟩
  have hmt : IsMiddleTunnel env a₁.m_depthLayer areaKey.m_priority = false := by
    simp only [IsMiddleTunnel, hl₁]
    rcases hnofold with h | h | h
    · simp [h]
    · simp [h]
    · simp [not_lt.mpr h]
  have hnf : IsTypeOf captionKey (Line ||| Area ||| Waymarker) = false := by
    rw [IsTypeOf_fold_mask]
    rcases hcaption with h | h <;> simp [h]
  have hmask : IsTypeOf captionKey (Caption ||| Symbol ||| Circle ||| PathText) = true := by
    rw [IsTypeOf_caption_mask]
    rcases hcaption with h | h <;> simp [h]
  have ha1 : IsTypeOf areaKey (Caption ||| Symbol ||| Circle ||| PathText) = false := by
    rw [IsTypeOf_caption_mask]; simp [harea]
  have ha2 : IsTypeOf areaKey Area = true := by
    rw [IsTypeOf_area_mask]; simp [harea]
  simp only [hmt, hnf, hmask, ha1, ha2, Bool.false_and, Bool.and_false, if_true, if_false,
    Bool.false_eq_true, hg₁, hg₂, hm₁, hm₂, hsame]
  by_cases hp : type = EGeomType.GEOM_POINT
  · simp only [hp, if_true]
    have hpop : (0 : ℚ) ≤ (f.GetPopulation : ℚ) / 7000000000 := by positivity
    constructor
    · linarith
    · intro _ _
      linarith
  · simp only [hp, if_false]
    have hnonneg : 0 ≤ (f.GetLimitRect zoomLevel).SizeX * (f.GetLimitRect zoomLevel).SizeY := by
      rcases hmod with h | h
      · exact absurd h hp
      · exact h
    have hm : 0 ≤ min (1 : ℚ)
        ((f.GetLimitRect zoomLevel).SizeX * (f.GetLimitRect zoomLevel).SizeY * 10000) := by
      apply le_min
      · norm_num
      · positivity
    constructor
    · linarith
    · intro _ hgap
      have hcap : 1 ≤ (f.GetLimitRect zoomLevel).SizeX * (f.GetLimitRect zoomLevel).SizeY
          * 10000 := by
        rcases hgap with h | h
        · exact h.elim
        · exact h
      rw [min_eq_left hcap]
      linarith

/-- C4 amended, at a concrete input: an area feature with the empty layer and
a limit rectangle of 0.1 by 0.1, so that the modifier is at its cap; the area
key of priority 50 gets a depth below that of the caption key of priority
50. -/
theorem C4_area_not_above_caption_unfolded_witness :
    ∃ aArea aCaption dArea dCaption,
      Aggregator.ProcessKey sampleEnv
        (Aggregator.new sampleEnv (sampleFeature 0 0 (1 / 10) (1 / 10)) EGeomType.GEOM_AREA 10 2)
        ⟨rule_type_t.area, 50⟩ = some aArea ∧
      Aggregator.ProcessKey sampleEnv
        (Aggregator.new sampleEnv (sampleFeature 0 0 (1 / 10) (1 / 10)) EGeomType.GEOM_AREA 10 2)
        ⟨rule_type_t.caption, 50⟩ = some aCaption ∧
      aArea.m_rules =
        (Aggregator.new sampleEnv (sampleFeature 0 0 (1 / 10) (1 / 10))
          EGeomType.GEOM_AREA 10 2).m_rules ++ [(plainRule, dArea)] ∧
      aCaption.m_rules =
        (Aggregator.new sampleEnv (sampleFeature 0 0 (1 / 10) (1 / 10))
          EGeomType.GEOM_AREA 10 2).m_rules ++ [(plainRule, dCaption)] ∧
      dArea ≤ dCaption ∧ dArea < dCaption := by
  obtain ⟨aArea, aCaption, dArea, dCaption, h1, h2, h3, h4, hle, hlt⟩ :=
    C4_area_not_above_caption_unfolded sampleEnv (sampleFeature 0 0 (1 / 10) (1 / 10))
      EGeomType.GEOM_AREA 10 2 [] [] _ _ ⟨rule_type_t.area, 50⟩ ⟨rule_type_t.caption, 50⟩
      plainRule plainRule rfl rfl (Or.inl rfl)
      (Or.inr (by norm_num [sampleFeature, m2.RectD.SizeX, m2.RectD.SizeY]))
      rfl (Or.inl rfl) rfl rfl rfl
  exact ⟨aArea, aCaption, dArea, dCaption, h1, h2, h3, h4, hle,
    hlt (by norm_num [abs_lt])
      (Or.inr (by norm_num [sampleFeature, m2.RectD.SizeX, m2.RectD.SizeY]))⟩

/-! ## The runtime filter and the aggregation always return -/

/-- When every candidate key has a rule, the runtime filter returns, and it
returns a sublist of the candidates. -/
theorem FilterRulesByRuntimeSelector_some (env : Env) (f : FeatureType) (zoomLevel : Int)
    (keys : KeysT) (hdb : ∀ k ∈ keys, (env.Find k).isSome = true) :
    ∃ kept, FilterRulesByRuntimeSelector env f zoomLevel keys = some kept ∧
      ∀ k ∈ kept, k ∈ keys := by
  induction keys with
  | nil => exact ⟨[], rfl, fun k hk => hk⟩
  | cons key keys ih =>
    have hkey := hdb key (List.mem_cons_self _ _)
    obtain ⟨rule, hrule⟩ := Option.isSome_iff_exists.mp hkey
    obtain ⟨rest, hrest, hsub⟩ := ih (fun k hk => hdb k (List.mem_cons_of_mem _ hk))
    unfold FilterRulesByRuntimeSelector
    simp only [hrule, hrest]
    by_cases ht : rule.TestFeature f zoomLevel = true
    · refine ⟨key :: rest, by simp [ht], ?_⟩
      intro k hk
      rcases List.mem_cons.mp hk with h | h
      · exact h ▸ List.mem_cons_self _ _
      · exact List.mem_cons_of_mem _ (hsub k h)
    · refine ⟨rest, by simp [ht], ?_⟩
      intro k hk
      exact List.mem_cons_of_mem _ (hsub k hk)

/-- When every key has a rule, `AggregateKeys` returns, and it has appended
one pair per key. -/
theorem Aggregator.AggregateKeys_some (env : Env) (keys : KeysT)
    (hdb : ∀ k ∈ keys, (env.Find k).isSome = true) :
    ∀ a : Aggregator, ∃ a', Aggregator.AggregateKeys env a keys = some a' ∧
      a'.m_rules.length = a.m_rules.length + keys.length := by
  induction keys with
  | nil => intro a; exact ⟨a, rfl, by simp⟩
  | cons key keys ih =>
    intro a
    have hkey := hdb key (List.mem_cons_self _ _)
    obtain ⟨rule, hrule⟩ := Option.isSome_iff_exists.mp hkey
    obtain ⟨b, hb, hbrules⟩ := Aggregator.ProcessKey_rules env a key rule hrule
    obtain ⟨a', ha', hlen⟩ := ih (fun k hk => hdb k (List.mem_cons_of_mem _ hk)) b
    refine ⟨a', ?_, ?_⟩
    · unfold Aggregator.AggregateKeys
      simp only [hb, ha']
    · rw [hlen, hbrules]
      simp
      omega

/-! ## The running maximum of `GetFeaturePriority` -/

/-- The value `GetFeaturePriority` returns at the input of the witness of C6:
the area key gets 50 - 1 = 49, the caption key 100 + 1 = 101. -/
theorem GetFeaturePriority_sample :
    GetFeaturePriority sampleEnv (sampleFeature 0 0 (1 / 10) (1 / 10)) 10 = some 101 := by
  have e2 : IsTypeOf ⟨rule_type_t.area, 50⟩ (Caption ||| Symbol ||| Circle ||| PathText)
      = false := by decide
  have e3 : IsTypeOf ⟨rule_type_t.area, 50⟩ Area = true := by decide
  have e4 : IsTypeOf ⟨rule_type_t.caption, 100⟩ (Line ||| Area ||| Waymarker) = false := by
    decide
  have e5 : IsTypeOf ⟨rule_type_t.caption, 100⟩ (Caption ||| Symbol ||| Circle ||| PathText)
      = true := by decide
  have e6 : ¬ EGeomType.GEOM_AREA = EGeomType.GEOM_POINT := by decide
  norm_num [GetFeaturePriority, FilterRulesByRuntimeSelector, sampleEnv, plainRule,
    Aggregator.AggregateKeys, Aggregator.ProcessKey, Aggregator.new, Aggregator.Init,
    IsMiddleTunnel, sampleFeature, m2.RectD.SizeX, m2.RectD.SizeY, kMinPriority,
    e2, e3, e4, e5, e6]


/-! ## `InitStylist`: the two "no style" outcomes -/

/-- A building part without 3-D buildings that is not a building: `InitStylist`
returns false and leaves the `Stylist` as it was. -/
theorem InitStylist_suppressed (env : Env) (f : FeatureType) (zoomLevel : Int)
    (buildings3d : Bool) (s : Stylist)
    (h : (!buildings3d && env.IsBuildingPartChecker ⟨f⟩ && !env.IsBuildingChecker ⟨f⟩) = true) :
    InitStylist env f zoomLevel buildings3d s = some (false, s) := by
  unfold InitStylist
  simp only [h, if_true]

/-- No key left after the runtime filter: `InitStylist` returns false and
leaves the `Stylist` as it was. -/
theorem InitStylist_no_keys (env : Env) (f : FeatureType) (zoomLevel : Int)
    (buildings3d : Bool) (s : Stylist)
    (h : FilterRulesByRuntimeSelector env f zoomLevel (env.GetDrawRule ⟨f⟩ zoomLevel).2
      = some []) :
    InitStylist env f zoomLevel buildings3d s = some (false, s) := by
  unfold InitStylist
  by_cases hs :
      (!buildings3d && env.IsBuildingPartChecker ⟨f⟩ && !env.IsBuildingChecker ⟨f⟩) = true
  · simp only [hs, if_true]
  · simp only [hs, h]
    simp

/-- A feature that is not suppressed, with a key left after the filter, a
geometry type of point, line or area and a rule for every deduplicated key:
`InitStylist` returns true. -/
theorem InitStylist_styled (env : Env) (f : FeatureType) (zoomLevel : Int)
    (buildings3d : Bool) (s : Stylist) (keys : KeysT)
    (hs : ¬ (!buildings3d && env.IsBuildingPartChecker ⟨f⟩ && !env.IsBuildingChecker ⟨f⟩) = true)
    (hkeys : FilterRulesByRuntimeSelector env f zoomLevel (env.GetDrawRule ⟨f⟩ zoomLevel).2
      = some keys)
    (hne : keys ≠ [])
    (hgeom : (env.GetDrawRule ⟨f⟩ zoomLevel).1.1 = EGeomType.GEOM_POINT ∨
      (env.GetDrawRule ⟨f⟩ zoomLevel).1.1 = EGeomType.GEOM_LINE ∨
      (env.GetDrawRule ⟨f⟩ zoomLevel).1.1 = EGeomType.GEOM_AREA)
    (hfind : ∀ k ∈ env.MakeUnique keys, (env.Find k).isSome = true) :
    ∃ s', InitStylist env f zoomLevel buildings3d s = some (true, s') := by
  obtain ⟨agg, hagg, _⟩ := Aggregator.AggregateKeys_some env (env.MakeUnique keys) hfind
    (Aggregator.new env f (env.GetDrawRule ⟨f⟩ zoomLevel).1.1 zoomLevel
      (env.MakeUnique keys).length)
  have hemp : keys.isEmpty = false := by
    cases keys with
    | nil => exact absurd rfl hne
    | cons k ks => rfl
  unfold InitStylist
  simp only [hs, hkeys, hemp, if_false, Bool.false_eq_true]
  rcases hgeom with hg | hg | hg
  · rw [hg] at hagg ⊢
    simp only [hagg]
    exact ⟨_, rfl⟩
  · rw [hg] at hagg ⊢
    simp only [hagg]
    exact ⟨_, rfl⟩
  · rw [hg] at hagg ⊢
    simp only [hagg]
    exact ⟨_, rfl⟩

/-- C7. For a feature whose candidate keys all have a rule, whose resolved
geometry type is point, line or area, and with a deduplication that only
removes keys, `InitStylist` returns, and it returns false if and only if the
feature is a building part that is not a building while 3-D buildings are
disabled, or no key is left after the runtime filter. -/
theorem C7_InitStylist_fails_iff (env : Env) (f : FeatureType) (zoomLevel : Int)
    (buildings3d : Bool) (s : Stylist)
    (hdb : ∀ k ∈ (env.GetDrawRule ⟨f⟩ zoomLevel).2, (env.Find k).isSome = true)
    (hunique : ∀ ks k, k ∈ env.MakeUnique ks → k ∈ ks)
    (hgeom : (env.GetDrawRule ⟨f⟩ zoomLevel).1.1 = EGeomType.GEOM_POINT ∨
      (env.GetDrawRule ⟨f⟩ zoomLevel).1.1 = EGeomType.GEOM_LINE ∨
      (env.GetDrawRule ⟨f⟩ zoomLevel).1.1 = EGeomType.GEOM_AREA) :
    ∃ keys result,
      FilterRulesByRuntimeSelector env f zoomLevel (env.GetDrawRule ⟨f⟩ zoomLevel).2
        = some keys ∧
      InitStylist env f zoomLevel buildings3d s = some result ∧
      (result.1 = false ↔
        ((buildings3d = false ∧ env.IsBuildingPartChecker ⟨f⟩ = true ∧
            env.IsBuildingChecker ⟨f⟩ = false) ∨
          keys = [])) := by
  obtain ⟨keys, hkeys, hsub⟩ := FilterRulesByRuntimeSelector_some env f zoomLevel _ hdb
  by_cases hs :
      (!buildings3d && env.IsBuildingPartChecker ⟨f⟩ && !env.IsBuildingChecker ⟨f⟩) = true
  · refine ⟨keys, (false, s), hkeys, InitStylist_suppressed env f zoomLevel buildings3d s hs, ?_⟩
    simp only [true_iff]
    left
    simpa [Bool.and_eq_true, and_assoc] using hs
  · by_cases hne : keys = []
    · subst hne
      refine ⟨[], (false, s), hkeys, InitStylist_no_keys env f zoomLevel buildings3d s hkeys, ?_⟩
      simp
    · obtain ⟨s', hs'⟩ := InitStylist_styled env f zoomLevel buildings3d s keys hs hkeys hne
        hgeom (fun k hk => hdb k (hsub k (hunique keys k hk)))
      refine ⟨keys, (true, s'), hkeys, hs', ?_⟩
      have hcond : ¬ (buildings3d = false ∧ env.IsBuildingPartChecker ⟨f⟩ = true ∧
          env.IsBuildingChecker ⟨f⟩ = false) := by
        intro hc
        apply hs
        simp [hc.1, hc.2.1, hc.2.2]
      simp [hcond, hne]

/-- C7, at a concrete input: in `sampleEnv` the feature is not a building
part and the filter keeps both keys, so `InitStylist` returns true. -/
theorem C7_InitStylist_fails_iff_witness :
    ∃ keys result,
      FilterRulesByRuntimeSelector sampleEnv (sampleFeature 0 0 1 1) 10
        (sampleEnv.GetDrawRule ⟨sampleFeature 0 0 1 1⟩ 10).2 = some keys ∧
      InitStylist sampleEnv (sampleFeature 0 0 1 1) 10 false Stylist.new = some result ∧
      (result.1 = false ↔
        (((false : Bool) = false ∧ sampleEnv.IsBuildingPartChecker ⟨sampleFeature 0 0 1 1⟩ = true ∧
            sampleEnv.IsBuildingChecker ⟨sampleFeature 0 0 1 1⟩ = false) ∨
          keys = [])) :=
  C7_InitStylist_fails_iff sampleEnv (sampleFeature 0 0 1 1) 10 false Stylist.new
    (fun _ _ => rfl) (fun _ _ h => h) (Or.inr (Or.inr rfl))

/-- C8. When `InitStylist` returns false for one of the two "no style"
reasons (a suppressed building part, or no key left after the filter) the
`Stylist` it was given is unchanged. Given a freshly constructed `Stylist`,
the four flags are then clear, the rule list is empty and the caption
description is the default one, whatever coastline flag the rule database
gave. -/
theorem C8_InitStylist_failure_leaves_stylist (env : Env) (f : FeatureType) (zoomLevel : Int)
    (buildings3d : Bool) (s : Stylist)
    (hfail :
      (!buildings3d && env.IsBuildingPartChecker ⟨f⟩ && !env.IsBuildingChecker ⟨f⟩) = true ∨
      FilterRulesByRuntimeSelector env f zoomLevel (env.GetDrawRule ⟨f⟩ zoomLevel).2 = some []) :
    InitStylist env f zoomLevel buildings3d s = some (false, s) ∧
    ∃ s', InitStylist env f zoomLevel buildings3d Stylist.new = some (false, s') ∧
      s'.IsCoastLine = false ∧ s'.AreaStyleExists = false ∧ s'.LineStyleExists = false ∧
      s'.PointStyleExists = false ∧ s'.IsEmpty = true ∧
      s'.GetCaptionDescription = CaptionDescription.new := by
  have hany : ∀ s : Stylist, InitStylist env f zoomLevel buildings3d s = some (false, s) := by
    intro s
    rcases hfail with h | h
    · exact InitStylist_suppressed env f zoomLevel buildings3d s h
    · exact InitStylist_no_keys env f zoomLevel buildings3d s h
  refine ⟨hany s, Stylist.new, hany Stylist.new, ?_, ?_, ?_, ?_, ?_, ?_⟩ <;> rfl

/-- C8, at a concrete input: in `coastEnv` the feature is flagged as coastline
and its only key is rejected by the runtime filter. -/
theorem C8_InitStylist_failure_leaves_stylist_witness :
    (coastEnv.GetDrawRule ⟨sampleFeature 0 0 1 1⟩ 10).1.2 = true ∧
    InitStylist coastEnv (sampleFeature 0 0 1 1) 10 true (Stylist.new.RaiseLineStyleFlag)
      = some (false, Stylist.new.RaiseLineStyleFlag) ∧
    ∃ s', InitStylist coastEnv (sampleFeature 0 0 1 1) 10 true Stylist.new = some (false, s') ∧
      s'.IsCoastLine = false ∧ s'.AreaStyleExists = false ∧ s'.LineStyleExists = false ∧
      s'.PointStyleExists = false ∧ s'.IsEmpty = true ∧
      s'.GetCaptionDescription = CaptionDescription.new :=
  ⟨rfl, C8_InitStylist_failure_leaves_stylist coastEnv (sampleFeature 0 0 1 1) 10 true
    (Stylist.new.RaiseLineStyleFlag) (Or.inr rfl)⟩


/-! ## The caption resolver: zoom filtering -/

/-- The main text `Init` fetches from the feature: the preferred name when an
auxiliary caption was requested or the geometry is linear, the readable name
otherwise. -/
theorem CaptionDescription.Init_eq (env : Env) (c : CaptionDescription) (f : FeatureType)
    (zoomLevel : Int) (type : EGeomType) (mainTextType : text_type_t) (auxCaptionExists : Bool) :
    CaptionDescription.Init env c f zoomLevel type mainTextType auxCaptionExists =
      CaptionDescription.ProcessMainTextType
        (CaptionDescription.ProcessZoomLevel env
          { m_mainText :=
              if auxCaptionExists = true ∨ type = EGeomType.GEOM_LINE then f.GetPreferredNames.1
              else f.GetReadableName
            m_auxText :=
              if auxCaptionExists = true ∨ type = EGeomType.GEOM_LINE then f.GetPreferredNames.2
              else c.m_auxText
            m_roadNumber := f.GetRoadNumber
            m_houseNumber := f.GetHouseNumber }
          zoomLevel)
        mainTextType := by
  unfold CaptionDescription.Init
  by_cases h : auxCaptionExists = true ∨ type = EGeomType.GEOM_LINE
  · simp only [h, if_true]
  · simp only [h, if_false]

/-- `ProcessMainTextType` leaves the auxiliary text alone. -/
theorem CaptionDescription.ProcessMainTextType_auxText (c : CaptionDescription)
    (mainTextType : text_type_t) :
    (CaptionDescription.ProcessMainTextType c mainTextType).m_auxText = c.m_auxText := by
  unfold CaptionDescription.ProcessMainTextType
  split_ifs <;> rfl

/-- The main text after `ProcessZoomLevel`: cleared below zoom 5 when longer
than 50, kept otherwise. -/
theorem CaptionDescription.ProcessZoomLevel_mainText (env : Env) (c : CaptionDescription)
    (zoomLevel : Int) :
    (CaptionDescription.ProcessZoomLevel env c zoomLevel).m_mainText =
      if zoomLevel < 5 ∧ c.m_mainText.length > 50 then [] else c.m_mainText := by
  unfold CaptionDescription.ProcessZoomLevel
  by_cases h1 : zoomLevel ≤ env.GetUpperWorldScale ∧ ¬ c.m_auxText.isEmpty = true
  · by_cases h2 : zoomLevel < 5 ∧ c.m_mainText.length > 50
    · simp only [if_pos h1, if_pos h2]
    · simp only [if_pos h1, if_neg h2]
  · by_cases h2 : zoomLevel < 5 ∧ c.m_mainText.length > 50
    · simp only [if_neg h1, if_pos h2]
    · simp only [if_neg h1, if_neg h2]

/-- The auxiliary text after `ProcessZoomLevel`: cleared up to the upper world
scale, kept above it. -/
theorem CaptionDescription.ProcessZoomLevel_auxText (env : Env) (c : CaptionDescription)
    (zoomLevel : Int) :
    (CaptionDescription.ProcessZoomLevel env c zoomLevel).m_auxText =
      if zoomLevel ≤ env.GetUpperWorldScale ∧ ¬ c.m_auxText.isEmpty = true then []
      else c.m_auxText := by
  unfold CaptionDescription.ProcessZoomLevel
  by_cases h1 : zoomLevel ≤ env.GetUpperWorldScale ∧ ¬ c.m_auxText.isEmpty = true
  · by_cases h2 : zoomLevel < 5 ∧ c.m_mainText.length > 50
    · simp only [if_pos h1, if_pos h2]
    · simp only [if_pos h1, if_neg h2]
  · by_cases h2 : zoomLevel < 5 ∧ c.m_mainText.length > 50
    · simp only [if_neg h1, if_pos h2]
    · simp only [if_neg h1, if_neg h2]

/-- `ProcessZoomLevel` leaves the house number alone. -/
theorem CaptionDescription.ProcessZoomLevel_houseNumber (env : Env) (c : CaptionDescription)
    (zoomLevel : Int) :
    (CaptionDescription.ProcessZoomLevel env c zoomLevel).m_houseNumber = c.m_houseNumber := by
  unfold CaptionDescription.ProcessZoomLevel
  by_cases h1 : zoomLevel ≤ env.GetUpperWorldScale ∧ ¬ c.m_auxText.isEmpty = true
  · by_cases h2 : zoomLevel < 5 ∧ c.m_mainText.length > 50
    · simp only [if_pos h1, if_pos h2]
    · simp only [if_pos h1, if_neg h2]
  · by_cases h2 : zoomLevel < 5 ∧ c.m_mainText.length > 50
    · simp only [if_neg h1, if_pos h2]
    · simp only [if_neg h1, if_neg h2]

/-- On an empty main text `ProcessMainTextType` puts the house number into the
main text for the types house number and name, and leaves it empty for any
other type. -/
theorem CaptionDescription.ProcessMainTextType_of_empty (c : CaptionDescription)
    (mainTextType : text_type_t) (hempty : c.m_mainText = []) :
    (CaptionDescription.ProcessMainTextType c mainTextType).m_mainText =
      if mainTextType = text_type_housenumber ∨ mainTextType = text_type_name then
        c.m_houseNumber
      else [] := by
  unfold CaptionDescription.ProcessMainTextType
  by_cases hh : mainTextType = text_type_housenumber
  · simp only [hh, true_or, if_true]
  · by_cases hn : mainTextType = text_type_name
    · by_cases he : c.m_houseNumber = []
      · simp [hh, hn, he, hempty]
      · simp [hh, hn, he, hempty]
    · simp [hh, hn, hempty]

/-- C9 fails as stated: at zoom 4, an area feature with a readable name of 51
characters and the house number "7", resolved for the text type name, ends
with the main text "7": the long name is cleared, then the house number is
swapped into the empty main text. The same happens for the text type house
number. -/
theorem C9_long_name_counterexample :
    (CaptionDescription.Init sampleEnv CaptionDescription.new
      { sampleFeature 0 0 1 1 with
        GetReadableName := List.replicate 51 'a', GetHouseNumber := ['7'] }
      4 EGeomType.GEOM_AREA text_type_name false).GetMainText = ['7'] ∧
    (CaptionDescription.Init sampleEnv CaptionDescription.new
      { sampleFeature 0 0 1 1 with
        GetReadableName := List.replicate 51 'a', GetHouseNumber := ['7'] }
      4 EGeomType.GEOM_AREA text_type_housenumber false).GetMainText = ['7'] ∧
    (List.replicate 51 'a').length > 50 ∧ (4 : Int) < 5 ∧ (['7'] : string) ≠ [] := by
  refine ⟨?_, ?_, by decide, by decide, by decide⟩ <;> decide

/-- C9, amended. If the zoom is below 5 and the main text fetched from the
feature is longer than 50, then after `Init` the main text is the feature's
house number when the text-slot type is house number or name, and empty for
any other text-slot type; so it is empty whenever the feature has no house
number. -/
theorem C9_long_name_cleared_up_to_house_number (env : Env) (c : CaptionDescription)
    (f : FeatureType) (zoomLevel : Int) (type : EGeomType) (mainTextType : text_type_t)
    (auxCaptionExists : Bool)
    (hzoom : zoomLevel < 5)
    (hlong : (if auxCaptionExists = true ∨ type = EGeomType.GEOM_LINE then f.GetPreferredNames.1
      else f.GetReadableName).length > 50) :
    (CaptionDescription.Init env c f zoomLevel type mainTextType auxCaptionExists).GetMainText =
        (if mainTextType = text_type_housenumber ∨ mainTextType = text_type_name then
          f.GetHouseNumber
        else []) ∧
    (f.GetHouseNumber = [] →
      (CaptionDescription.Init env c f zoomLevel type mainTextType
        auxCaptionExists).GetMainText = []) := by
  have hmain :
      (CaptionDescription.Init env c f zoomLevel type mainTextType auxCaptionExists).GetMainText =
        (if mainTextType = text_type_housenumber ∨ mainTextType = text_type_name then
          f.GetHouseNumber
        else []) := by
    rw [CaptionDescription.Init_eq]
    unfold CaptionDescription.GetMainText
    rw [CaptionDescription.ProcessMainTextType_of_empty, CaptionDescription.ProcessZoomLevel_houseNumber]
    rw [CaptionDescription.ProcessZoomLevel_mainText]
    exact if_pos ⟨hzoom, hlong⟩
  refine ⟨hmain, ?_⟩
  intro he
  rw [hmain, he]
  simp

/-- C9 amended, at a concrete input: zoom 4 and a readable name of 51
characters on a feature without house number leave an empty main text. -/
theorem C9_long_name_cleared_up_to_house_number_witness :
    (CaptionDescription.Init sampleEnv CaptionDescription.new
      { sampleFeature 0 0 1 1 with GetReadableName := List.replicate 51 'a' }
      4 EGeomType.GEOM_AREA text_type_name false).GetMainText = [] :=
  (C9_long_name_cleared_up_to_house_number sampleEnv CaptionDescription.new
    { sampleFeature 0 0 1 1 with GetReadableName := List.replicate 51 'a' }
    4 EGeomType.GEOM_AREA text_type_name false (by decide) (by decide)).2 rfl

/-- C10. If the zoom is at most `scales::GetUpperWorldScale()`, then after
`Init` the auxiliary text is empty, for every feature, geometry type,
text-slot type and auxiliary-caption request, and whatever the caption
description held before. -/
theorem C10_aux_text_cleared_at_small_scale (env : Env) (c : CaptionDescription)
    (f : FeatureType) (zoomLevel : Int) (type : EGeomType) (mainTextType : text_type_t)
    (auxCaptionExists : Bool)
    (hzoom : zoomLevel ≤ env.GetUpperWorldScale) :
    (CaptionDescription.Init env c f zoomLevel type mainTextType auxCaptionExists).GetAuxText
      = [] := by
  rw [CaptionDescription.Init_eq]
  unfold CaptionDescription.GetAuxText
  rw [CaptionDescription.ProcessMainTextType_auxText, CaptionDescription.ProcessZoomLevel_auxText]
  by_cases he : (if auxCaptionExists = true ∨ type = EGeomType.GEOM_LINE then
      f.GetPreferredNames.2 else c.m_auxText).isEmpty = true
  · rw [if_neg (fun h => h.2 he)]
    exact List.isEmpty_iff.mp he
  · rw [if_pos ⟨hzoom, he⟩]

/-- C10, at a concrete input: zoom 9, the upper world scale of `sampleEnv`,
and a feature with the auxiliary name "b" requested by a rule. -/
theorem C10_aux_text_cleared_at_small_scale_witness :
    (CaptionDescription.Init sampleEnv CaptionDescription.new
      { sampleFeature 0 0 1 1 with GetPreferredNames := (['a'], ['b']) }
      9 EGeomType.GEOM_POINT text_type_name true).GetAuxText = [] :=
  C10_aux_text_cleared_at_small_scale sampleEnv CaptionDescription.new
    { sampleFeature 0 0 1 1 with GetPreferredNames := (['a'], ['b']) }
    9 EGeomType.GEOM_POINT text_type_name true (by decide)

/-! ## The caption resolver: slot-type reconciliation -/

/-- `startsWith hay needle` holds exactly when `hay` is `needle` followed by
something. -/
theorem startsWith_iff (needle : string) :
    ∀ hay : string, startsWith hay needle = true ↔ ∃ post, hay = needle ++ post := by
  induction needle with
  | nil =>
    intro hay
    cases hay <;> simp [startsWith]
  | cons d needle ih =>
    intro hay
    cases hay with
    | nil => simp [startsWith]
    | cons c hay =>
      simp only [startsWith, Bool.and_eq_true, beq_iff_eq, ih hay, List.cons_append,
        List.cons.injEq]
      constructor
      · rintro ⟨hcd, post, hpost⟩
        exact ⟨post, hcd, hpost⟩
      · rintro ⟨post, hcd, hpost⟩
        exact ⟨hcd, post, hpost⟩

/-- `find` returns a position exactly when `needle` occurs in `hay` as a
contiguous run of characters. -/
theorem find_ne_none_iff (needle : string) :
    ∀ hay : string, find hay needle ≠ none ↔ ∃ pre post, hay = pre ++ needle ++ post := by
  intro hay
  induction hay with
  | nil =>
    unfold find
    by_cases hs : startsWith [] needle = true
    · simp only [hs, if_true]
      obtain ⟨post, hpost⟩ := (startsWith_iff needle []).mp hs
      exact ⟨fun _ => ⟨[], post, by simpa using hpost⟩, fun _ => by simp⟩
    · simp only [hs]
      constructor
      · intro h; exact absurd rfl h
      · rintro ⟨pre, post, h⟩
        exfalso
        apply hs
        rw [startsWith_iff]
        have h' := h.symm
        simp only [List.append_eq_nil] at h'
        exact ⟨[], by simp [h'.1.2]⟩
  | cons c hay ih =>
    unfold find
    by_cases hs : startsWith (c :: hay) needle = true
    · simp only [hs, if_true]
      obtain ⟨post, hpost⟩ := (startsWith_iff needle (c :: hay)).mp hs
      exact ⟨fun _ => ⟨[], post, by simpa using hpost⟩, fun _ => by simp⟩
    · simp only [hs]
      constructor
      · intro h
        have hrest : find hay needle ≠ none := by
          intro hnone
          apply h
          simp [hnone]
        obtain ⟨pre, post, hpp⟩ := ih.mp hrest
        exact ⟨c :: pre, post, by simp [hpp]⟩
      · rintro ⟨pre, post, h⟩
        cases pre with
        | nil =>
          exfalso
          apply hs
          rw [startsWith_iff]
          exact ⟨post, by simpa using h⟩
        | cons p pre =>
          simp only [List.cons_append, List.cons.injEq] at h
          have hrest : find hay needle ≠ none := ih.mpr ⟨pre, post, h.2⟩
          cases hf : find hay needle with
          | none => exact absurd hf hrest
          | some i => simp

/-- C11. When the main text type passed to `Init` is house number, the main
text afterwards is the house number of the feature and the house-number field
is empty, at every zoom and for every geometry type (and whether or not the
house number is empty). -/
theorem C11_house_number_slot (env : Env) (c : CaptionDescription) (f : FeatureType)
    (zoomLevel : Int) (type : EGeomType) (mainTextType : text_type_t) (auxCaptionExists : Bool)
    (hslot : mainTextType = text_type_housenumber) :
    (CaptionDescription.Init env c f zoomLevel type mainTextType auxCaptionExists).GetMainText
      = f.GetHouseNumber ∧
    (CaptionDescription.Init env c f zoomLevel type mainTextType auxCaptionExists).m_houseNumber
      = [] := by
  subst hslot
  have hres : ∀ d : CaptionDescription,
      CaptionDescription.ProcessMainTextType d text_type_housenumber =
        { d with m_mainText := d.m_houseNumber, m_houseNumber := [] } := by
    intro d
    unfold CaptionDescription.ProcessMainTextType
    rw [if_pos rfl]
  rw [CaptionDescription.Init_eq, hres]
  unfold CaptionDescription.GetMainText
  exact ⟨CaptionDescription.ProcessZoomLevel_houseNumber env _ zoomLevel, rfl⟩

/-- C11, at a concrete input: a point feature named "a" with the house number
"7" at zoom 17. -/
theorem C11_house_number_slot_witness :
    (CaptionDescription.Init sampleEnv CaptionDescription.new
      { sampleFeature 0 0 1 1 with GetReadableName := ['a'], GetHouseNumber := ['7'] }
      17 EGeomType.GEOM_POINT text_type_housenumber false).GetMainText = ['7'] ∧
    (CaptionDescription.Init sampleEnv CaptionDescription.new
      { sampleFeature 0 0 1 1 with GetReadableName := ['a'], GetHouseNumber := ['7'] }
      17 EGeomType.GEOM_POINT text_type_housenumber false).m_houseNumber = [] :=
  C11_house_number_slot sampleEnv CaptionDescription.new
    { sampleFeature 0 0 1 1 with GetReadableName := ['a'], GetHouseNumber := ['7'] }
    17 EGeomType.GEOM_POINT text_type_housenumber false rfl

/-- C12 fails as stated: with the main text "1", a substring of the house
number "12", and the text type name, `ProcessMainTextType` swaps the two
strings; the main text becomes "12" and the house-number field becomes "1",
not empty. -/
theorem C12_name_slot_counterexample :
    find ['1', '2'] ['1'] ≠ none ∧
    (CaptionDescription.ProcessMainTextType
      { m_mainText := ['1'], m_auxText := [], m_roadNumber := [], m_houseNumber := ['1', '2'] }
      text_type_name).m_mainText = ['1', '2'] ∧
    (CaptionDescription.ProcessMainTextType
      { m_mainText := ['1'], m_auxText := [], m_roadNumber := [], m_houseNumber := ['1', '2'] }
      text_type_name).m_houseNumber = ['1'] ∧
    (['1'] : string) ≠ [] := by
  refine ⟨by decide, by decide, by decide, by decide⟩

/-- C12, amended. For a caption state with the text type name, a non-empty
house number and a main text that is empty or occurs in the house number,
`ProcessMainTextType` swaps the two: the main text becomes the original house
number and the house-number field becomes the original main text, so that it
is empty exactly when the main text was empty. -/
theorem C12_name_slot_swaps (c : CaptionDescription)
    (hhouse : c.m_houseNumber ≠ [])
    (hsub : c.m_mainText = [] ∨ ∃ pre post, c.m_houseNumber = pre ++ c.m_mainText ++ post) :
    (CaptionDescription.ProcessMainTextType c text_type_name).m_mainText = c.m_houseNumber ∧
    (CaptionDescription.ProcessMainTextType c text_type_name).m_houseNumber = c.m_mainText ∧
    ((CaptionDescription.ProcessMainTextType c text_type_name).m_houseNumber = [] ↔
      c.m_mainText = []) := by
  have hcond : c.m_mainText.isEmpty = true ∨ find c.m_houseNumber c.m_mainText ≠ none := by
    rcases hsub with h | h
    · left; rw [h]; rfl
    · right; exact (find_ne_none_iff c.m_mainText c.m_houseNumber).mpr h
  have hne : ¬ c.m_houseNumber.isEmpty = true := by
    intro h
    exact hhouse (List.isEmpty_iff.mp h)
  have hres : CaptionDescription.ProcessMainTextType c text_type_name =
      { c with m_houseNumber := c.m_mainText, m_mainText := c.m_houseNumber } := by
    unfold CaptionDescription.ProcessMainTextType
    rw [if_neg (by decide), if_pos rfl, if_pos hne, if_pos hcond]
  rw [hres]
  exact ⟨rfl, rfl, Iff.rfl⟩

/-- C12 amended, at a concrete input: an empty main text and the house number
"12". -/
theorem C12_name_slot_swaps_witness :
    (CaptionDescription.ProcessMainTextType
      { m_mainText := [], m_auxText := [], m_roadNumber := [], m_houseNumber := ['1', '2'] }
      text_type_name).m_mainText = ['1', '2'] ∧
    (CaptionDescription.ProcessMainTextType
      { m_mainText := [], m_auxText := [], m_roadNumber := [], m_houseNumber := ['1', '2'] }
      text_type_name).m_houseNumber = [] ∧
    ((CaptionDescription.ProcessMainTextType
      { m_mainText := [], m_auxText := [], m_roadNumber := [], m_houseNumber := ['1', '2'] }
      text_type_name).m_houseNumber = [] ↔ ([] : string) = []) :=
  C12_name_slot_swaps
    { m_mainText := [], m_auxText := [], m_roadNumber := [], m_houseNumber := ['1', '2'] }
    (by decide) (Or.inl rfl)

/-- C13 fails as stated: with the main text "a", no house number and the text
type house number, `ProcessMainTextType` moves the empty house number into
the main text and clears the house-number field; `IsNameExists` is false
afterwards although the main text was non-empty before. -/
theorem C13_name_exists_counterexample :
    (CaptionDescription.ProcessMainTextType
      { m_mainText := ['a'], m_auxText := [], m_roadNumber := [], m_houseNumber := [] }
      text_type_housenumber).IsNameExists = false ∧
    (['a'] : string) ≠ [] := by
  refine ⟨by decide, by decide⟩

/-- C13, amended. After `ProcessMainTextType` with the text type name,
`IsNameExists` holds exactly when the main text or the house number was
non-empty before; with the text type house number it holds exactly when the
house number was non-empty before (the former main text is dropped). -/
theorem C13_name_exists_after_merge (c : CaptionDescription) :
    ((CaptionDescription.ProcessMainTextType c text_type_name).IsNameExists = true ↔
      (c.m_mainText ≠ [] ∨ c.m_houseNumber ≠ [])) ∧
    ((CaptionDescription.ProcessMainTextType c text_type_housenumber).IsNameExists = true ↔
      c.m_houseNumber ≠ []) := by
  obtain ⟨main, aux, road, house⟩ := c
  constructor
  · unfold CaptionDescription.ProcessMainTextType CaptionDescription.IsNameExists
    rw [if_neg (by decide), if_pos rfl]
    cases main with
    | nil => cases house <;> simp
    | cons m ms =>
      cases house with
      | nil => simp
      | cons h hs => split_ifs <;> simp
  · unfold CaptionDescription.ProcessMainTextType CaptionDescription.IsNameExists
    rw [if_pos rfl]
    cases house <;> simp

/-- C15. `GetPathName` is empty exactly when the main text is empty, and for a
non-empty main text it is the main text, three spaces and the auxiliary text,
whatever the auxiliary text is. -/
theorem C15_GetPathName (c : CaptionDescription) :
    (c.GetPathName = [] ↔ c.m_mainText = []) ∧
    (c.m_mainText ≠ [] → c.GetPathName = c.m_mainText ++ [' ', ' ', ' '] ++ c.m_auxText) := by
  obtain ⟨main, aux, road, house⟩ := c
  cases main with
  | nil => simp [CaptionDescription.GetPathName]
  | cons m ms => simp [CaptionDescription.GetPathName]

/-- C15, at a concrete input: main text "a" and an empty auxiliary text give
"a" followed by three spaces. -/
theorem C15_GetPathName_witness :
    ((CaptionDescription.GetPathName
        { m_mainText := ['a'], m_auxText := [], m_roadNumber := [], m_houseNumber := [] } = [] ↔
      (['a'] : string) = []) ∧
    CaptionDescription.GetPathName
      { m_mainText := ['a'], m_auxText := [], m_roadNumber := [], m_houseNumber := [] }
      = ['a', ' ', ' ', ' ']) :=
  ⟨(C15_GetPathName
      { m_mainText := ['a'], m_auxText := [], m_roadNumber := [], m_houseNumber := [] }).1,
    (C15_GetPathName
      { m_mainText := ['a'], m_auxText := [], m_roadNumber := [], m_houseNumber := [] }).2
      (by decide)⟩

/-! ## The aggregator: one key at a time -/

/-- What `ProcessKey` returns for a key that has a rule: the pair of the rule
and the depth appended, the main text type replaced when the rule has a
caption at slot 0, the auxiliary-caption flag or-ed with the presence of a
caption at slot 1. -/
theorem Aggregator.ProcessKey_some (env : Env) (a : Aggregator) (key : Key) (dRule : BaseRule)
    (hfind : env.Find key = some dRule) :
    Aggregator.ProcessKey env a key = some
      { a with
        m_rules := a.m_rules ++ [(dRule, a.depthOf env key)]
        m_mainTextType :=
          if (dRule.GetCaption 0).isSome = true then dRule.GetCaptionTextType 0
          else a.m_mainTextType
        m_auxCaptionFound := a.m_auxCaptionFound || (dRule.GetCaption 1).isSome } := by
  unfold Aggregator.ProcessKey Aggregator.depthOf
  simp only [hfind]
  split_ifs <;> rfl

/-- A key without a rule makes `ProcessKey` fail. -/
theorem Aggregator.ProcessKey_none (env : Env) (a : Aggregator) (key : Key)
    (hfind : env.Find key = none) : Aggregator.ProcessKey env a key = none := by
  unfold Aggregator.ProcessKey
  simp only [hfind]

/-- The depth of a key is the same in two states with the same layer, modifier
and geometry type. -/
theorem Aggregator.depthOf_congr (env : Env) (a b : Aggregator) (key : Key)
    (h : a.depthState = b.depthState) : a.depthOf env key = b.depthOf env key := by
  simp only [Aggregator.depthState, Prod.mk.injEq] at h
  obtain ⟨hl, hm, hg⟩ := h
  unfold Aggregator.depthOf
  rw [hl, hm, hg]

/-- The pairs `AggregateKeys` appends, key by key: the rule of the key and the
depth of the key in the starting state. -/
theorem Aggregator.AggregateKeys_rules (env : Env) (keys : KeysT) :
    ∀ a a' : Aggregator, Aggregator.AggregateKeys env a keys = some a' →
      ∃ pairs : List (BaseRule × ℚ), a'.m_rules = a.m_rules ++ pairs ∧
        List.Forall₂
          (fun key pair => env.Find key = some pair.1 ∧ pair.2 = a.depthOf env key)
          keys pairs := by
  induction keys with
  | nil =>
    intro a a' h
    simp only [Aggregator.AggregateKeys, Option.some.injEq] at h
    subst h
    exact ⟨[], by simp, List.Forall₂.nil⟩
  | cons key keys ih =>
    intro a a' h
    unfold Aggregator.AggregateKeys at h
    cases hf : env.Find key with
    | none =>
      rw [Aggregator.ProcessKey_none env a key hf] at h
      simp at h
    | some dRule =>
      rw [Aggregator.ProcessKey_some env a key dRule hf] at h
      simp only at h
      obtain ⟨pairs, hrules, hall⟩ := ih _ a' h
      refine ⟨(dRule, a.depthOf env key) :: pairs, ?_, ?_⟩
      · rw [hrules]; simp
      · refine List.Forall₂.cons ⟨hf, rfl⟩ ?_
        refine List.Forall₂.imp ?_ hall
        intro k pr hk
        refine ⟨hk.1, ?_⟩
        rw [hk.2]
        exact Aggregator.depthOf_congr env _ a k rfl

/-! ## `InitStylist`: the populated `Stylist` -/

/-- What a successful `InitStylist` has done: the filter kept some keys, the
geometry type is point, line or area, the aggregator ran over the
deduplicated keys, and the `Stylist` is the given one after the steps of the
source: coastline flag, geometry flag, caption description, point and line
style flags, rules. -/
theorem InitStylist_true_inv (env : Env) (f : FeatureType) (zoomLevel : Int)
    (buildings3d : Bool) (s s' : Stylist)
    (h : InitStylist env f zoomLevel buildings3d s = some (true, s')) :
    ∃ keys aggregator,
      FilterRulesByRuntimeSelector env f zoomLevel (env.GetDrawRule ⟨f⟩ zoomLevel).2
        = some keys ∧
      Aggregator.AggregateKeys env
        (Aggregator.new env f (env.GetDrawRule ⟨f⟩ zoomLevel).1.1 zoomLevel
          (env.MakeUnique keys).length) (env.MakeUnique keys) = some aggregator ∧
      ((env.GetDrawRule ⟨f⟩ zoomLevel).1.1 = EGeomType.GEOM_POINT ∨
        (env.GetDrawRule ⟨f⟩ zoomLevel).1.1 = EGeomType.GEOM_LINE ∨
        (env.GetDrawRule ⟨f⟩ zoomLevel).1.1 = EGeomType.GEOM_AREA) ∧
      s' =
        (let s₁ := if (env.GetDrawRule ⟨f⟩ zoomLevel).1.2 = true then s.RaiseCoastlineFlag else s
         let s₂ :=
           if (env.GetDrawRule ⟨f⟩ zoomLevel).1.1 = EGeomType.GEOM_POINT then
             s₁.RaisePointStyleFlag
           else if (env.GetDrawRule ⟨f⟩ zoomLevel).1.1 = EGeomType.GEOM_LINE then
             s₁.RaiseLineStyleFlag
           else s₁.RaiseAreaStyleFlag
         let descr := CaptionDescription.Init env s₂.m_captionDescriptor f zoomLevel
           (env.GetDrawRule ⟨f⟩ zoomLevel).1.1 aggregator.m_mainTextType
           aggregator.m_auxCaptionFound
         let s₃ := { s₂ with m_captionDescriptor := descr }
         let flags := aggregator.AggregateStyleFlags (env.MakeUnique keys) descr.IsNameExists
         let s₄ := if flags.m_pointStyleFound = true then s₃.RaisePointStyleFlag else s₃
         let s₅ := if flags.m_lineStyleFound = true then s₄.RaiseLineStyleFlag else s₄
         { s₅ with m_rules := flags.m_rules }) := by
  unfold InitStylist at h
  by_cases hsup :
      (!buildings3d && env.IsBuildingPartChecker ⟨f⟩ && !env.IsBuildingChecker ⟨f⟩) = true
  · rw [if_pos hsup] at h
    simp at h
  · rw [if_neg hsup] at h
    cases hfilter :
        FilterRulesByRuntimeSelector env f zoomLevel (env.GetDrawRule ⟨f⟩ zoomLevel).2 with
    | none => simp [hfilter] at h
    | some keys =>
      simp only [hfilter] at h
      by_cases hemp : keys.isEmpty = true
      · rw [if_pos hemp] at h
        simp at h
      · rw [if_neg hemp] at h
        cases hgeom : (env.GetDrawRule ⟨f⟩ zoomLevel).1.1 with
        | GEOM_UNDEFINED =>
          simp [hgeom, ASSERT] at h
        | GEOM_POINT =>
          simp only [hgeom] at h
          cases hagg : Aggregator.AggregateKeys env
              (Aggregator.new env f EGeomType.GEOM_POINT zoomLevel (env.MakeUnique keys).length)
              (env.MakeUnique keys) with
          | none => simp [hagg] at h
          | some aggregator =>
            rw [hagg] at h
            refine ⟨keys, aggregator, rfl, hagg, Or.inl rfl, ?_⟩
            rw [← (Prod.mk.inj (Option.some.inj h)).2]
            rfl
        | GEOM_LINE =>
          simp only [hgeom] at h
          cases hagg : Aggregator.AggregateKeys env
              (Aggregator.new env f EGeomType.GEOM_LINE zoomLevel (env.MakeUnique keys).length)
              (env.MakeUnique keys) with
          | none => simp [hagg] at h
          | some aggregator =>
            rw [hagg] at h
            refine ⟨keys, aggregator, rfl, hagg, Or.inr (Or.inl rfl), ?_⟩
            rw [← (Prod.mk.inj (Option.some.inj h)).2]
            rfl
        | GEOM_AREA =>
          simp only [hgeom] at h
          cases hagg : Aggregator.AggregateKeys env
              (Aggregator.new env f EGeomType.GEOM_AREA zoomLevel (env.MakeUnique keys).length)
              (env.MakeUnique keys) with
          | none => simp [hagg] at h
          | some aggregator =>
            rw [hagg] at h
            refine ⟨keys, aggregator, rfl, hagg, Or.inr (Or.inr rfl), ?_⟩
            rw [← (Prod.mk.inj (Option.some.inj h)).2]
            rfl

/-! ## The style-flag pass -/

/-- With the mask line the test holds for line keys only. -/
theorem IsTypeOf_line_mask (key : Key) :
    IsTypeOf key Line = decide (key.m_type = rule_type_t.line) := by
  obtain ⟨t, p⟩ := key
  cases t <;> rfl

/-- With the mask symbol, circle the test holds for symbol and circle keys
only. -/
theorem IsTypeOf_symbol_circle_mask (key : Key) :
    IsTypeOf key (Symbol ||| Circle) =
      decide (key.m_type = rule_type_t.symbol ∨ key.m_type = rule_type_t.circle) := by
  obtain ⟨t, p⟩ := key
  cases t <;> rfl

/-- With the mask caption the test holds for caption keys only. -/
theorem IsTypeOf_caption_only_mask (key : Key) :
    IsTypeOf key Caption = decide (key.m_type = rule_type_t.caption) := by
  obtain ⟨t, p⟩ := key
  cases t <;> rfl

/-- `AggregateStyleFlags` leaves the rules alone. -/
theorem Aggregator.AggregateStyleFlags_rules (keys : KeysT) (nameExists : Bool) :
    ∀ a : Aggregator, (a.AggregateStyleFlags keys nameExists).m_rules = a.m_rules := by
  induction keys with
  | nil => intro a; rfl
  | cons key keys ih =>
    intro a
    unfold Aggregator.AggregateStyleFlags
    rw [List.foldl_cons]
    exact ih _

/-- The point style flag after `AggregateStyleFlags`: the flag before, or a
symbol or circle key, or a caption key when a name exists. -/
theorem Aggregator.AggregateStyleFlags_point (keys : KeysT) (nameExists : Bool) :
    ∀ a : Aggregator, (a.AggregateStyleFlags keys nameExists).m_pointStyleFound =
      (a.m_pointStyleFound ||
        keys.any (fun key => IsTypeOf key (Symbol ||| Circle) ||
          (IsTypeOf key Caption && nameExists))) := by
  induction keys with
  | nil => intro a; simp [Aggregator.AggregateStyleFlags]
  | cons key keys ih =>
    intro a
    unfold Aggregator.AggregateStyleFlags
    rw [List.foldl_cons]
    have h := ih
      { a with
        m_pointStyleFound :=
          a.m_pointStyleFound ||
            (IsTypeOf key (Symbol ||| Circle) || (IsTypeOf key Caption && nameExists))
        m_lineStyleFound := a.m_lineStyleFound || IsTypeOf key Line }
    unfold Aggregator.AggregateStyleFlags at h
    rw [h, List.any_cons, Bool.or_assoc]

/-- The line style flag after `AggregateStyleFlags`: the flag before, or a
line key. -/
theorem Aggregator.AggregateStyleFlags_line (keys : KeysT) (nameExists : Bool) :
    ∀ a : Aggregator, (a.AggregateStyleFlags keys nameExists).m_lineStyleFound =
      (a.m_lineStyleFound || keys.any (fun key => IsTypeOf key Line)) := by
  induction keys with
  | nil => intro a; simp [Aggregator.AggregateStyleFlags]
  | cons key keys ih =>
    intro a
    unfold Aggregator.AggregateStyleFlags
    rw [List.foldl_cons]
    have h := ih
      { a with
        m_pointStyleFound :=
          a.m_pointStyleFound ||
            (IsTypeOf key (Symbol ||| Circle) || (IsTypeOf key Caption && nameExists))
        m_lineStyleFound := a.m_lineStyleFound || IsTypeOf key Line }
    unfold Aggregator.AggregateStyleFlags at h
    rw [h, List.any_cons, Bool.or_assoc]

/-- `AggregateKeys` leaves the two style flags alone. -/
theorem Aggregator.AggregateKeys_styleFound (env : Env) (keys : KeysT) :
    ∀ a a' : Aggregator, Aggregator.AggregateKeys env a keys = some a' →
      a'.m_pointStyleFound = a.m_pointStyleFound ∧
      a'.m_lineStyleFound = a.m_lineStyleFound := by
  induction keys with
  | nil =>
    intro a a' h
    simp only [Aggregator.AggregateKeys, Option.some.injEq] at h
    subst h
    exact ⟨rfl, rfl⟩
  | cons key keys ih =>
    intro a a' h
    unfold Aggregator.AggregateKeys at h
    cases hf : env.Find key with
    | none =>
      rw [Aggregator.ProcessKey_none env a key hf] at h
      simp at h
    | some dRule =>
      rw [Aggregator.ProcessKey_some env a key dRule hf] at h
      simp only at h
      obtain ⟨h1, h2⟩ := ih _ a' h
      exact ⟨h1, h2⟩

/-- The steps of `InitStylist` on the `Stylist`, for any caption resolver
`descrOf` and any style pass `flagsOf`: the caption description, the rules
and the flag bits of the result. -/
theorem Stylist.populate_fields (s : Stylist) (coast : Bool) (g : EGeomType)
    (descrOf : CaptionDescription → CaptionDescription)
    (flagsOf : CaptionDescription → Aggregator) :
    let s₁ := if coast = true then s.RaiseCoastlineFlag else s
    let s₂ :=
      if g = EGeomType.GEOM_POINT then s₁.RaisePointStyleFlag
      else if g = EGeomType.GEOM_LINE then s₁.RaiseLineStyleFlag
      else s₁.RaiseAreaStyleFlag
    let descr := descrOf s₂.m_captionDescriptor
    let s₃ := { s₂ with m_captionDescriptor := descr }
    let flags := flagsOf descr
    let s₄ := if flags.m_pointStyleFound = true then s₃.RaisePointStyleFlag else s₃
    let s₅ := if flags.m_lineStyleFound = true then s₄.RaiseLineStyleFlag else s₄
    let result : Stylist := { s₅ with m_rules := flags.m_rules }
    result.m_captionDescriptor = descrOf s.m_captionDescriptor ∧
    result.m_rules = (flagsOf (descrOf s.m_captionDescriptor)).m_rules ∧
    result.m_state =
      (((if coast = true then s.m_state ||| CoastlineFlag else s.m_state) |||
        (if g = EGeomType.GEOM_POINT then PointStyleFlag
          else if g = EGeomType.GEOM_LINE then LineStyleFlag else AreaStyleFlag)) |||
        (if (flagsOf (descrOf s.m_captionDescriptor)).m_pointStyleFound = true
          then PointStyleFlag else 0)) |||
        (if (flagsOf (descrOf s.m_captionDescriptor)).m_lineStyleFound = true
          then LineStyleFlag else 0) := by
  intro s₁ s₂ descr s₃ flags s₄ s₅ result
  have hcd : s₂.m_captionDescriptor = s.m_captionDescriptor := by
    simp only [s₂, s₁]
    cases coast <;> split_ifs <;> rfl
  have hdescr : descr = descrOf s.m_captionDescriptor := by
    simp only [descr, hcd]
  have hflags : flags = flagsOf (descrOf s.m_captionDescriptor) := by
    simp only [flags, hdescr]
  have hst₂ : s₂.m_state =
      (if coast = true then s.m_state ||| CoastlineFlag else s.m_state) |||
        (if g = EGeomType.GEOM_POINT then PointStyleFlag
          else if g = EGeomType.GEOM_LINE then LineStyleFlag else AreaStyleFlag) := by
    simp only [s₂, s₁]
    cases coast <;> split_ifs <;> rfl
  rw [← hflags]
  refine ⟨?_, rfl, ?_⟩
  · simp only [result, s₅, s₄, s₃]
    rw [← hdescr]
    split_ifs <;> rfl
  · have hst₃ : s₃.m_state = s₂.m_state := rfl
    rw [← hst₂, ← hst₃]
    simp only [result, s₅, s₄]
    split_ifs <;> simp [Stylist.RaisePointStyleFlag, Stylist.RaiseLineStyleFlag]

/-- The fields of the `Stylist` after a successful `InitStylist`. -/
theorem InitStylist_true_fields (env : Env) (f : FeatureType) (zoomLevel : Int)
    (buildings3d : Bool) (s s' : Stylist)
    (h : InitStylist env f zoomLevel buildings3d s = some (true, s')) :
    ∃ keys aggregator,
      FilterRulesByRuntimeSelector env f zoomLevel (env.GetDrawRule ⟨f⟩ zoomLevel).2
        = some keys ∧
      Aggregator.AggregateKeys env
        (Aggregator.new env f (env.GetDrawRule ⟨f⟩ zoomLevel).1.1 zoomLevel
          (env.MakeUnique keys).length) (env.MakeUnique keys) = some aggregator ∧
      ((env.GetDrawRule ⟨f⟩ zoomLevel).1.1 = EGeomType.GEOM_POINT ∨
        (env.GetDrawRule ⟨f⟩ zoomLevel).1.1 = EGeomType.GEOM_LINE ∨
        (env.GetDrawRule ⟨f⟩ zoomLevel).1.1 = EGeomType.GEOM_AREA) ∧
      s'.m_captionDescriptor =
        CaptionDescription.Init env s.m_captionDescriptor f zoomLevel
          (env.GetDrawRule ⟨f⟩ zoomLevel).1.1 aggregator.m_mainTextType
          aggregator.m_auxCaptionFound ∧
      s'.m_rules = aggregator.m_rules ∧
      s'.m_state =
        (((if (env.GetDrawRule ⟨f⟩ zoomLevel).1.2 = true then s.m_state ||| CoastlineFlag
            else s.m_state) |||
          (if (env.GetDrawRule ⟨f⟩ zoomLevel).1.1 = EGeomType.GEOM_POINT then PointStyleFlag
            else if (env.GetDrawRule ⟨f⟩ zoomLevel).1.1 = EGeomType.GEOM_LINE then LineStyleFlag
            else AreaStyleFlag)) |||
          (if (aggregator.AggregateStyleFlags (env.MakeUnique keys)
              s'.m_captionDescriptor.IsNameExists).m_pointStyleFound = true
            then PointStyleFlag else 0)) |||
          (if (aggregator.AggregateStyleFlags (env.MakeUnique keys)
              s'.m_captionDescriptor.IsNameExists).m_lineStyleFound = true
            then LineStyleFlag else 0) := by
  obtain ⟨keys, agg, hfilter, hagg, hgeom, hs'⟩ :=
    InitStylist_true_inv env f zoomLevel buildings3d s s' h
  obtain ⟨h1, h2, h3⟩ := Stylist.populate_fields s (env.GetDrawRule ⟨f⟩ zoomLevel).1.2
    (env.GetDrawRule ⟨f⟩ zoomLevel).1.1
    (fun cd => CaptionDescription.Init env cd f zoomLevel (env.GetDrawRule ⟨f⟩ zoomLevel).1.1
      agg.m_mainTextType agg.m_auxCaptionFound)
    (fun descr => agg.AggregateStyleFlags (env.MakeUnique keys) descr.IsNameExists)
  have hd : s'.m_captionDescriptor =
      CaptionDescription.Init env s.m_captionDescriptor f zoomLevel
        (env.GetDrawRule ⟨f⟩ zoomLevel).1.1 agg.m_mainTextType agg.m_auxCaptionFound := by
    rw [hs']; exact h1
  refine ⟨keys, agg, hfilter, hagg, hgeom, hd, ?_, ?_⟩
  · rw [hs']
    exact h2.trans (Aggregator.AggregateStyleFlags_rules _ _ agg)
  · rw [hd]
    rw [hs']
    exact h3

/-- C14. The flags of a freshly constructed `Stylist` after a successful
`InitStylist`, with `keys` the keys the runtime filter kept: the coastline
flag is the coastline flag of the rule database; the area flag says that the
geometry type is area; the line flag says that the geometry type is line or a
deduplicated key is a line key; the point flag says that the geometry type is
point, or a deduplicated key is a symbol or circle key, or a deduplicated key
is a caption key and the resolved caption has a name. -/
theorem C14_populated_flags (env : Env) (f : FeatureType) (zoomLevel : Int)
    (buildings3d : Bool) (s' : Stylist)
    (h : InitStylist env f zoomLevel buildings3d Stylist.new = some (true, s')) :
    ∃ keys,
      FilterRulesByRuntimeSelector env f zoomLevel (env.GetDrawRule ⟨f⟩ zoomLevel).2
        = some keys ∧
      (s'.IsCoastLine = true ↔ (env.GetDrawRule ⟨f⟩ zoomLevel).1.2 = true) ∧
      (s'.AreaStyleExists = true ↔
        (env.GetDrawRule ⟨f⟩ zoomLevel).1.1 = EGeomType.GEOM_AREA) ∧
      (s'.LineStyleExists = true ↔
        ((env.GetDrawRule ⟨f⟩ zoomLevel).1.1 = EGeomType.GEOM_LINE ∨
          ∃ key ∈ env.MakeUnique keys, key.m_type = rule_type_t.line)) ∧
      (s'.PointStyleExists = true ↔
        ((env.GetDrawRule ⟨f⟩ zoomLevel).1.1 = EGeomType.GEOM_POINT ∨
          (∃ key ∈ env.MakeUnique keys,
            key.m_type = rule_type_t.symbol ∨ key.m_type = rule_type_t.circle) ∨
          ((∃ key ∈ env.MakeUnique keys, key.m_type = rule_type_t.caption) ∧
            s'.GetCaptionDescription.IsNameExists = true))) := by
  obtain ⟨keys, agg, hfilter, hagg, hgeom, -, -, hstate⟩ :=
    InitStylist_true_fields env f zoomLevel buildings3d Stylist.new s' h
  refine ⟨keys, hfilter, ?_⟩
  obtain ⟨hpt0, hln0⟩ := Aggregator.AggregateKeys_styleFound env _ _ agg hagg
  have hpt0' : agg.m_pointStyleFound = false := hpt0
  have hln0' : agg.m_lineStyleFound = false := hln0
  have hline :
      (agg.AggregateStyleFlags (env.MakeUnique keys)
        s'.m_captionDescriptor.IsNameExists).m_lineStyleFound = true ↔
        ∃ key ∈ env.MakeUnique keys, key.m_type = rule_type_t.line := by
    rw [Aggregator.AggregateStyleFlags_line, hln0']
    simp [IsTypeOf_line_mask]
  have hpoint :
      (agg.AggregateStyleFlags (env.MakeUnique keys)
        s'.m_captionDescriptor.IsNameExists).m_pointStyleFound = true ↔
        ((∃ key ∈ env.MakeUnique keys,
            key.m_type = rule_type_t.symbol ∨ key.m_type = rule_type_t.circle) ∨
          ((∃ key ∈ env.MakeUnique keys, key.m_type = rule_type_t.caption) ∧
            s'.m_captionDescriptor.IsNameExists = true)) := by
    rw [Aggregator.AggregateStyleFlags_point, hpt0']
    simp only [Bool.false_or, List.any_eq_true, Bool.or_eq_true, Bool.and_eq_true,
      IsTypeOf_symbol_circle_mask, IsTypeOf_caption_only_mask, decide_eq_true_eq]
    constructor
    · rintro ⟨key, hk, hc | ⟨hc, hn⟩⟩
      · exact Or.inl ⟨key, hk, hc⟩
      · exact Or.inr ⟨⟨key, hk, hc⟩, hn⟩
    · rintro (⟨key, hk, hc⟩ | ⟨⟨key, hk, hc⟩, hn⟩)
      · exact ⟨key, hk, Or.inl hc⟩
      · exact ⟨key, hk, Or.inr ⟨hc, hn⟩⟩
  unfold Stylist.GetCaptionDescription
  rw [← hline, ← hpoint]
  unfold Stylist.IsCoastLine Stylist.AreaStyleExists Stylist.LineStyleExists
    Stylist.PointStyleExists
  rw [hstate]
  generalize (agg.AggregateStyleFlags (env.MakeUnique keys)
    s'.m_captionDescriptor.IsNameExists).m_pointStyleFound = pointFound
  generalize (agg.AggregateStyleFlags (env.MakeUnique keys)
    s'.m_captionDescriptor.IsNameExists).m_lineStyleFound = lineFound
  generalize (env.GetDrawRule ⟨f⟩ zoomLevel).1.2 = coast at *
  generalize (env.GetDrawRule ⟨f⟩ zoomLevel).1.1 = g at *
  rcases hgeom with hg | hg | hg <;> subst hg <;>
    cases coast <;> cases pointFound <;> cases lineFound <;> decide

/-- C14, at a concrete input: in `sampleEnv` the feature has an area geometry
and the keys area and caption pass the filter, so `InitStylist` succeeds and
the flags are as stated. -/
theorem C14_populated_flags_witness :
    ∃ s', InitStylist sampleEnv (sampleFeature 0 0 1 1) 10 false Stylist.new = some (true, s') ∧
      ∃ keys,
        FilterRulesByRuntimeSelector sampleEnv (sampleFeature 0 0 1 1) 10
          (sampleEnv.GetDrawRule ⟨sampleFeature 0 0 1 1⟩ 10).2 = some keys ∧
        (s'.IsCoastLine = true ↔ (sampleEnv.GetDrawRule ⟨sampleFeature 0 0 1 1⟩ 10).1.2 = true) ∧
        (s'.AreaStyleExists = true ↔
          (sampleEnv.GetDrawRule ⟨sampleFeature 0 0 1 1⟩ 10).1.1 = EGeomType.GEOM_AREA) ∧
        (s'.LineStyleExists = true ↔
          ((sampleEnv.GetDrawRule ⟨sampleFeature 0 0 1 1⟩ 10).1.1 = EGeomType.GEOM_LINE ∨
            ∃ key ∈ sampleEnv.MakeUnique keys, key.m_type = rule_type_t.line)) ∧
        (s'.PointStyleExists = true ↔
          ((sampleEnv.GetDrawRule ⟨sampleFeature 0 0 1 1⟩ 10).1.1 = EGeomType.GEOM_POINT ∨
            (∃ key ∈ sampleEnv.MakeUnique keys,
              key.m_type = rule_type_t.symbol ∨ key.m_type = rule_type_t.circle) ∨
            ((∃ key ∈ sampleEnv.MakeUnique keys, key.m_type = rule_type_t.caption) ∧
              s'.GetCaptionDescription.IsNameExists = true))) := by
  obtain ⟨s', hs'⟩ := InitStylist_styled sampleEnv (sampleFeature 0 0 1 1) 10 false Stylist.new
    [⟨rule_type_t.area, 50⟩, ⟨rule_type_t.caption, 100⟩] (by decide) rfl (by simp)
    (Or.inr (Or.inr rfl)) (fun _ _ => rfl)
  exact ⟨s', hs', C14_populated_flags sampleEnv (sampleFeature 0 0 1 1) 10 false s' hs'⟩

/-! ## The order of the rules -/

/-- A callback that appends what it is given collects the list it runs over. -/
theorem foldl_collect {α : Type} (l : List α) :
    ∀ seen : List α, l.foldl (fun seen x => seen ++ [x]) seen = seen ++ l := by
  induction l with
  | nil => intro seen; simp
  | cons x l ih =>
    intro seen
    rw [List.foldl_cons, ih]
    simp

/-- C16. `AggregateKeys` on a new aggregator records one pair per key, in the
order of the keys: the pairs and the keys have the same length, and the pair
at the place of a key is the rule found for the key with the depth
`ProcessKey` computes for that key. After a successful `InitStylist`,
`ForEachRule` calls its callback on exactly the pairs the aggregator recorded
for the deduplicated keys, in that order, and a second call goes over the
same pairs again. -/
theorem C16_resolved_order (env : Env) (f : FeatureType) (zoomLevel : Int) :
    (∀ (type : EGeomType) (keyCount : Nat) (keys : KeysT) (aggregator : Aggregator),
      Aggregator.AggregateKeys env (Aggregator.new env f type zoomLevel keyCount) keys
          = some aggregator →
        aggregator.m_rules.length = keys.length ∧
        List.Forall₂
          (fun key pair => env.Find key = some pair.1 ∧
            ∃ b, Aggregator.ProcessKey env (Aggregator.new env f type zoomLevel keyCount) key
                = some b ∧ b.m_rules = [pair])
          keys aggregator.m_rules) ∧
    (∀ (buildings3d : Bool) (s s' : Stylist),
      InitStylist env f zoomLevel buildings3d s = some (true, s') →
        ∃ keys aggregator,
          FilterRulesByRuntimeSelector env f zoomLevel (env.GetDrawRule ⟨f⟩ zoomLevel).2
            = some keys ∧
          Aggregator.AggregateKeys env
            (Aggregator.new env f (env.GetDrawRule ⟨f⟩ zoomLevel).1.1 zoomLevel
              (env.MakeUnique keys).length) (env.MakeUnique keys) = some aggregator ∧
          s'.ForEachRule (fun rule seen => seen ++ [rule]) [] = aggregator.m_rules ∧
          s'.ForEachRule (fun rule seen => seen ++ [rule])
              (s'.ForEachRule (fun rule seen => seen ++ [rule]) [])
            = aggregator.m_rules ++ aggregator.m_rules ∧
          ∀ (σ : Type) (fn : BaseRule × ℚ → σ → σ) (st : σ),
            s'.ForEachRule fn st = aggregator.m_rules.foldl (fun st rule => fn rule st) st) := by
  constructor
  · intro type keyCount keys agg hagg
    obtain ⟨pairs, hrules, hall⟩ := Aggregator.AggregateKeys_rules env keys _ agg hagg
    have hnil : (Aggregator.new env f type zoomLevel keyCount).m_rules = [] := rfl
    rw [hnil, List.nil_append] at hrules
    rw [hrules]
    refine ⟨hall.length_eq.symm, ?_⟩
    refine List.Forall₂.imp ?_ hall
    intro key pair hk
    refine ⟨hk.1, _, Aggregator.ProcessKey_some env _ key pair.1 hk.1, ?_⟩
    simp only [hnil, List.nil_append, ← hk.2]
  · intro buildings3d s s' h
    obtain ⟨keys, agg, hfilter, hagg, -, -, hrules, -⟩ :=
      InitStylist_true_fields env f zoomLevel buildings3d s s' h
    refine ⟨keys, agg, hfilter, hagg, ?_, ?_, ?_⟩
    · unfold Stylist.ForEachRule
      rw [hrules, foldl_collect, List.nil_append]
    · unfold Stylist.ForEachRule
      rw [hrules, foldl_collect, foldl_collect, List.nil_append]
    · intro σ fn st
      unfold Stylist.ForEachRule
      rw [hrules]

/-- C16, at a concrete input: the two keys of `sampleEnv` and the successful
`InitStylist` of the witness of the flags. -/
theorem C16_resolved_order_witness :
    (∃ aggregator,
      Aggregator.AggregateKeys sampleEnv
          (Aggregator.new sampleEnv (sampleFeature 0 0 1 1) EGeomType.GEOM_AREA 10 2)
          [⟨rule_type_t.area, 50⟩, ⟨rule_type_t.caption, 100⟩] = some aggregator ∧
        aggregator.m_rules.length =
          ([⟨rule_type_t.area, 50⟩, ⟨rule_type_t.caption, 100⟩] : KeysT).length) ∧
    (∃ (s' : Stylist) (keys : KeysT) (aggregator : Aggregator),
      InitStylist sampleEnv (sampleFeature 0 0 1 1) 10 false Stylist.new = some (true, s') ∧
      FilterRulesByRuntimeSelector sampleEnv (sampleFeature 0 0 1 1) 10
        (sampleEnv.GetDrawRule ⟨sampleFeature 0 0 1 1⟩ 10).2 = some keys ∧
      Aggregator.AggregateKeys sampleEnv
        (Aggregator.new sampleEnv (sampleFeature 0 0 1 1)
          (sampleEnv.GetDrawRule ⟨sampleFeature 0 0 1 1⟩ 10).1.1 10
          (sampleEnv.MakeUnique keys).length) (sampleEnv.MakeUnique keys) = some aggregator ∧
      s'.ForEachRule (fun rule seen => seen ++ [rule]) [] = aggregator.m_rules) := by
  constructor
  · obtain ⟨agg, hagg, -⟩ := Aggregator.AggregateKeys_some sampleEnv
      [⟨rule_type_t.area, 50⟩, ⟨rule_type_t.caption, 100⟩] (fun _ _ => rfl)
      (Aggregator.new sampleEnv (sampleFeature 0 0 1 1) EGeomType.GEOM_AREA 10 2)
    exact ⟨agg, hagg,
      ((C16_resolved_order sampleEnv (sampleFeature 0 0 1 1) 10).1 _ _ _ agg hagg).1⟩
  · obtain ⟨s', hs'⟩ := InitStylist_styled sampleEnv (sampleFeature 0 0 1 1) 10 false Stylist.new
      [⟨rule_type_t.area, 50⟩, ⟨rule_type_t.caption, 100⟩] (by decide) rfl (by simp)
      (Or.inr (Or.inr rfl)) (fun _ _ => rfl)
    obtain ⟨keys, agg, hfilter, hagg, hfor, -, -⟩ :=
      (C16_resolved_order sampleEnv (sampleFeature 0 0 1 1) 10).2 false Stylist.new s' hs'
    exact ⟨s', keys, agg, hs', hfilter, hagg, hfor⟩

/-! ## Folding and the main text type -/

/-- Two states with the same layer, modifier, geometry type and rules record
the same rules for the same keys. -/
theorem Aggregator.AggregateKeys_rules_congr (env : Env) (keys : KeysT) :
    ∀ a b : Aggregator, a.depthState = b.depthState → a.m_rules = b.m_rules →
      (Aggregator.AggregateKeys env a keys).map (fun r => r.m_rules) =
        (Aggregator.AggregateKeys env b keys).map (fun r => r.m_rules) := by
  induction keys with
  | nil =>
    intro a b _ hr
    simp [Aggregator.AggregateKeys, hr]
  | cons key keys ih =>
    intro a b hd hr
    unfold Aggregator.AggregateKeys
    cases hf : env.Find key with
    | none =>
      rw [Aggregator.ProcessKey_none env a key hf, Aggregator.ProcessKey_none env b key hf]
    | some dRule =>
      rw [Aggregator.ProcessKey_some env a key dRule hf,
        Aggregator.ProcessKey_some env b key dRule hf]
      simp only
      apply ih
      · exact hd
      · simp only [hr, Aggregator.depthOf_congr env a b key hd]

/-- C19. A line key is not folded outside the middle-tunnel condition: when
the layer of the feature is the empty or the transparent-tunnel layer, or the
base priority is 19000 or more, `ProcessKey` records the base priority as the
depth. And a feature on the transparent-tunnel layer gets, for every sequence
of keys, the same rules and depths as the same feature on the empty layer. -/
theorem C19_no_folding_outside_middle_tunnel (env : Env) (f : FeatureType) (type : EGeomType)
    (zoomLevel : Int) (keyCount : Nat) :
    (∀ (done : KeysT) (a : Aggregator) (key : Key) (dRule : BaseRule),
      Aggregator.AggregateKeys env (Aggregator.new env f type zoomLevel keyCount) done = some a →
      key.m_type = rule_type_t.line →
      (f.GetLayer = env.LAYER_EMPTY ∨ f.GetLayer = env.LAYER_TRANSPARENT_TUNNEL ∨
        19000 ≤ key.m_priority) →
      env.Find key = some dRule →
      ∃ a', Aggregator.ProcessKey env a key = some a' ∧
        a'.m_rules = a.m_rules ++ [(dRule, key.m_priority)]) ∧
    (f.GetLayer = env.LAYER_TRANSPARENT_TUNNEL →
      ∀ keys : KeysT,
        (Aggregator.AggregateKeys env (Aggregator.new env f type zoomLevel keyCount) keys).map
            (fun r => r.m_rules) =
          (Aggregator.AggregateKeys env
            (Aggregator.new env { f with GetLayer := env.LAYER_EMPTY } type zoomLevel keyCount)
            keys).map (fun r => r.m_rules)) := by
  constructor
  · intro done a key dRule hrun hline hcond hfind
    have hst := Aggregator.AggregateKeys_depthState env done _ a hrun
    simp only [Aggregator.depthState, Prod.mk.injEq, Aggregator.new_depthLayer] at hst
    obtain ⟨hl, -, -⟩ := hst
    refine ⟨_, Aggregator.ProcessKey_some env a key dRule hfind, ?_⟩
    have hmt : IsMiddleTunnel env a.m_depthLayer key.m_priority = false := by
      simp only [IsMiddleTunnel, hl]
      rcases hcond with h | h | h
      · simp [h]
      · simp [h]
      · simp [not_lt.mpr h]
    simp [Aggregator.depthOf, hmt, IsTypeOf_caption_mask, IsTypeOf_area_mask, hline]
  · intro htunnel keys
    apply Aggregator.AggregateKeys_rules_congr
    · simp [Aggregator.depthState, Aggregator.new, Aggregator.Init, htunnel]
    · rfl

/-- C19, at a concrete input: a line key of priority 100 on a feature of the
transparent-tunnel layer 11 of `sampleEnv` keeps the depth 100. -/
theorem C19_no_folding_outside_middle_tunnel_witness :
    ∃ a', Aggregator.ProcessKey sampleEnv
        (Aggregator.new sampleEnv (sampleFeature 11 0 0 0) EGeomType.GEOM_LINE 10 1)
        ⟨rule_type_t.line, 100⟩ = some a' ∧
      a'.m_rules =
        (Aggregator.new sampleEnv (sampleFeature 11 0 0 0) EGeomType.GEOM_LINE 10 1).m_rules ++
          [(plainRule, 100)] :=
  (C19_no_folding_outside_middle_tunnel sampleEnv (sampleFeature 11 0 0 0) EGeomType.GEOM_LINE
    10 1).1 [] _ ⟨rule_type_t.line, 100⟩ plainRule rfl rfl (Or.inr (Or.inl rfl)) rfl

/-- `AggregateKeys` on a non-empty sequence: `ProcessKey` on the first key,
then the rest. -/
theorem Aggregator.AggregateKeys_cons (env : Env) (a : Aggregator) (key : Key) (keys : KeysT) :
    Aggregator.AggregateKeys env a (key :: keys) =
      (Aggregator.ProcessKey env a key).bind (fun b => Aggregator.AggregateKeys env b keys) := by
  rw [Aggregator.AggregateKeys]
  cases Aggregator.ProcessKey env a key <;> rfl

/-- `AggregateKeys` over two sequences in a row. -/
theorem Aggregator.AggregateKeys_append (env : Env) (xs ys : KeysT) :
    ∀ a : Aggregator, Aggregator.AggregateKeys env a (xs ++ ys) =
      (Aggregator.AggregateKeys env a xs).bind (fun b => Aggregator.AggregateKeys env b ys) := by
  induction xs with
  | nil => intro a; rfl
  | cons key xs ih =>
    intro a
    rw [List.cons_append, Aggregator.AggregateKeys_cons, Aggregator.AggregateKeys_cons]
    cases hp : Aggregator.ProcessKey env a key with
    | none => rfl
    | some b =>
      rw [Option.some_bind, Option.some_bind]
      exact ih b

/-- Keys whose rules have no caption at slot 0 leave the main text type as it
was. -/
theorem Aggregator.AggregateKeys_mainTextType_kept (env : Env) (keys : KeysT) :
    ∀ a a' : Aggregator, Aggregator.AggregateKeys env a keys = some a' →
      (∀ key ∈ keys, ∀ r, env.Find key = some r → r.GetCaption 0 = none) →
      a'.m_mainTextType = a.m_mainTextType := by
  induction keys with
  | nil =>
    intro a a' h _
    simp only [Aggregator.AggregateKeys, Option.some.injEq] at h
    rw [h]
  | cons key keys ih =>
    intro a a' h hno
    unfold Aggregator.AggregateKeys at h
    cases hf : env.Find key with
    | none =>
      rw [Aggregator.ProcessKey_none env a key hf] at h
      simp at h
    | some dRule =>
      rw [Aggregator.ProcessKey_some env a key dRule hf] at h
      simp only at h
      have hkeep := ih _ a' h (fun k hk => hno k (List.mem_cons_of_mem _ hk))
      rw [hkeep]
      simp [hno key (List.mem_cons_self _ _) dRule hf]

/-- C20. After `AggregateKeys` on a new aggregator, the main text type is the
default type name when no key has a rule with a caption at slot 0; otherwise
it is the slot-0 caption text type of the rule of the last key that has one
(the key after which no key has a slot-0 caption). -/
theorem C20_main_text_type (env : Env) (f : FeatureType) (type : EGeomType) (zoomLevel : Int)
    (keyCount : Nat) (keys : KeysT) (aggregator : Aggregator)
    (hrun : Aggregator.AggregateKeys env (Aggregator.new env f type zoomLevel keyCount) keys
      = some aggregator) :
    ((∀ key ∈ keys, ∀ r, env.Find key = some r → r.GetCaption 0 = none) →
      aggregator.m_mainTextType = text_type_name) ∧
    (∀ (before after : KeysT) (key : Key) (dRule : BaseRule),
      keys = before ++ key :: after →
      env.Find key = some dRule →
      dRule.GetCaption 0 ≠ none →
      (∀ k ∈ after, ∀ r, env.Find k = some r → r.GetCaption 0 = none) →
      aggregator.m_mainTextType = dRule.GetCaptionTextType 0) := by
  constructor
  · intro hno
    exact Aggregator.AggregateKeys_mainTextType_kept env keys _ aggregator hrun hno
  · intro before after key dRule hkeys hfind hcap hafter
    subst hkeys
    rw [Aggregator.AggregateKeys_append] at hrun
    cases hb : Aggregator.AggregateKeys env (Aggregator.new env f type zoomLevel keyCount)
        before with
    | none => rw [hb] at hrun; simp at hrun
    | some b =>
      rw [hb, Option.some_bind, Aggregator.AggregateKeys_cons,
        Aggregator.ProcessKey_some env b key dRule hfind, Option.some_bind] at hrun
      rw [Aggregator.AggregateKeys_mainTextType_kept env after _ aggregator hrun hafter]
      have hsome : (dRule.GetCaption 0).isSome = true := by
        cases hc : dRule.GetCaption 0 with
        | none => exact absurd hc hcap
        | some u => rfl
      simp [hsome]

/-- C20, at a concrete input: a caption key whose rule has a slot-0 caption of
type house number, followed by an area key whose rule has no caption, leaves
the main text type house number. -/
theorem C20_main_text_type_witness :
    ∃ aggregator,
      Aggregator.AggregateKeys houseNumberEnv
        (Aggregator.new houseNumberEnv (sampleFeature 0 0 1 1) EGeomType.GEOM_AREA 10 2)
        [⟨rule_type_t.caption, 100⟩, ⟨rule_type_t.area, 50⟩] = some aggregator ∧
      aggregator.m_mainTextType = text_type_housenumber := by
  obtain ⟨agg, hagg, -⟩ := Aggregator.AggregateKeys_some houseNumberEnv
    [⟨rule_type_t.caption, 100⟩, ⟨rule_type_t.area, 50⟩]
    (by intro k hk; simp only [houseNumberEnv]; split_ifs <;> rfl)
    (Aggregator.new houseNumberEnv (sampleFeature 0 0 1 1) EGeomType.GEOM_AREA 10 2)
  refine ⟨agg, hagg, ?_⟩
  exact (C20_main_text_type houseNumberEnv (sampleFeature 0 0 1 1) EGeomType.GEOM_AREA 10 2
    _ agg hagg).2 [] [⟨rule_type_t.area, 50⟩] ⟨rule_type_t.caption, 100⟩ houseNumberRule
    rfl rfl (by decide)
    (by
      intro k hk r hr
      rw [List.mem_singleton] at hk
      subst hk
      have : r = plainRule := by
        have h2 : houseNumberEnv.Find ⟨rule_type_t.area, 50⟩ = some plainRule := rfl
        rw [h2] at hr
        exact (Option.some.inj hr).symm
      rw [this]
      rfl)

/-! ## Order of folded depths -/

/-- The truncated quotient of a priority in the first bucket is 0. -/
theorem trunc_div_eq_zero (x y : ℚ) (hx : 0 ≤ x) (hxy : x < y) : trunc (x / y) = 0 := by
  have hy : 0 < y := lt_of_le_of_lt hx hxy
  have h0 : 0 ≤ x / y := div_nonneg hx (le_of_lt hy)
  have h1 : x / y < 1 := (div_lt_one hy).mpr hxy
  unfold trunc
  rw [if_pos h0]
  exact Int.floor_eq_zero_iff.mpr ⟨h0, h1⟩

/-- The remainder `fmod` of two naturals, the divisor positive, is the
remainder of the natural division. -/
theorem fmod_natCast (p n : ℕ) (hn : 0 < n) : fmod (p : ℚ) (n : ℚ) = ((p % n : ℕ) : ℚ) := by
  have hq : (0 : ℚ) ≤ (p : ℚ) / (n : ℚ) := by positivity
  unfold fmod trunc
  rw [if_pos hq, Rat.floor_natCast_div_natCast]
  have h := Nat.div_add_mod p n
  have h' : ((n : ℚ) * ((p / n : ℕ) : ℚ)) + ((p % n : ℕ) : ℚ) = (p : ℚ) := by
    exact_mod_cast h
  have hz : (((p : ℤ) / (n : ℤ) : ℤ) : ℚ) = ((p / n : ℕ) : ℚ) := by
    norm_cast
  rw [hz]
  linarith

/-- Whatever positive value the layer base priority `L` has, the remainder
does not keep the order of the two priorities `-L < -L / 2`: they fold to
`0` and `-L / 2`. -/
theorem fmod_order_fails_for_every_positive_base (L : ℚ) (hL : 0 < L) :
    -L < -L / 2 ∧ -L / 2 < 19000 ∧ fmod (-L) L = 0 ∧ fmod (-L / 2) L = -L / 2 ∧
      ¬ (fmod (-L) L < fmod (-L / 2) L) := by
  have hne : L ≠ 0 := ne_of_gt hL
  have h1 : -L / L = -1 := by field_simp
  have h2 : -L / 2 / L = -(1 / 2) := by
    field_simp
    ring
  have t1 : trunc (-1 : ℚ) = -1 := by norm_num [trunc]
  have t2 : trunc (-(1 / 2) : ℚ) = 0 := by norm_num [trunc]
  have f1 : fmod (-L) L = 0 := by
    unfold fmod
    rw [h1, t1]
    push_cast
    ring
  have f2 : fmod (-L / 2) L = -L / 2 := by
    unfold fmod
    rw [h2, t2]
    push_cast
    ring
  refine ⟨by linarith, by linarith, f1, f2, ?_⟩
  rw [f1, f2]
  intro h
  linarith

/-- C17 fails as stated: on layer 2 with the layer base priority 2000, the
line key of priority 1999 gets the depth 5999 and the line key of priority
2000 gets the depth 4000; the remainder starts again at each multiple of the
layer base priority. -/
theorem C17_fold_order_counterexample :
    ∃ a₁ a₂,
      Aggregator.ProcessKey sampleEnv
        (Aggregator.new sampleEnv (sampleFeature 2 0 0 0) EGeomType.GEOM_LINE 10 2)
        ⟨rule_type_t.line, 1999⟩ = some a₁ ∧
      Aggregator.ProcessKey sampleEnv
        (Aggregator.new sampleEnv (sampleFeature 2 0 0 0) EGeomType.GEOM_LINE 10 2)
        ⟨rule_type_t.line, 2000⟩ = some a₂ ∧
      a₁.m_rules = [(plainRule, 5999)] ∧ a₂.m_rules = [(plainRule, 4000)] ∧
      (1999 : ℚ) < 2000 ∧ (2000 : ℚ) < 19000 ∧ ¬ ((5999 : ℚ) < 4000) := by
  have e1 : IsTypeOf ⟨rule_type_t.line, 1999⟩ (Line ||| Area ||| Waymarker) = true := by decide
  have e2 : IsTypeOf ⟨rule_type_t.line, 1999⟩ (Caption ||| Symbol ||| Circle ||| PathText)
      = false := by decide
  have e3 : IsTypeOf ⟨rule_type_t.line, 1999⟩ Area = false := by decide
  have e4 : IsTypeOf ⟨rule_type_t.line, 2000⟩ (Line ||| Area ||| Waymarker) = true := by decide
  have e5 : IsTypeOf ⟨rule_type_t.line, 2000⟩ (Caption ||| Symbol ||| Circle ||| PathText)
      = false := by decide
  have e6 : IsTypeOf ⟨rule_type_t.line, 2000⟩ Area = false := by decide
  refine ⟨_, _, Aggregator.ProcessKey_some sampleEnv _ ⟨rule_type_t.line, 1999⟩ plainRule rfl,
    Aggregator.ProcessKey_some sampleEnv _ ⟨rule_type_t.line, 2000⟩ plainRule rfl, ?_, ?_,
    by norm_num, by norm_num, by norm_num⟩
  · norm_num [Aggregator.depthOf, e1, e2, e3, IsMiddleTunnel, Aggregator.new, Aggregator.Init,
      sampleEnv, sampleFeature, fmod, trunc]
  · norm_num [Aggregator.depthOf, e4, e5, e6, IsMiddleTunnel, Aggregator.new, Aggregator.Init,
      sampleEnv, sampleFeature, fmod, trunc]

/-- C17, amended. On a feature whose normalised layer is non-empty, two line
keys with base priorities `P1 < P2`, both below 19000, that lie in the same
bucket of the layer base priority (the quotients `P1 / L` and `P2 / L`
truncate to the same integer, as they do when `0 ≤ P1 < P2 < L`) get folded
depths in the same order: the depth of the first is strictly less. -/
theorem C17_fold_order_within_bucket (env : Env) (f : FeatureType) (type : EGeomType)
    (zoomLevel : Int) (keyCount : Nat) (done₁ done₂ : KeysT) (a₁ a₂ : Aggregator)
    (key₁ key₂ : Key) (rule₁ rule₂ : BaseRule)
    (hrun₁ : Aggregator.AggregateKeys env (Aggregator.new env f type zoomLevel keyCount) done₁
      = some a₁)
    (hrun₂ : Aggregator.AggregateKeys env (Aggregator.new env f type zoomLevel keyCount) done₂
      = some a₂)
    (hnotTunnel : f.GetLayer ≠ env.LAYER_TRANSPARENT_TUNNEL)
    (hnotEmpty : f.GetLayer ≠ env.LAYER_EMPTY)
    (hline₁ : key₁.m_type = rule_type_t.line)
    (hline₂ : key₂.m_type = rule_type_t.line)
    (hlt : key₁.m_priority < key₂.m_priority)
    (hprio : key₂.m_priority < 19000)
    (hbucket : trunc (key₁.m_priority / env.layer_base_priority) =
      trunc (key₂.m_priority / env.layer_base_priority))
    (hfind₁ : env.Find key₁ = some rule₁)
    (hfind₂ : env.Find key₂ = some rule₂) :
    ∃ b₁ b₂ d₁ d₂,
      Aggregator.ProcessKey env a₁ key₁ = some b₁ ∧
      Aggregator.ProcessKey env a₂ key₂ = some b₂ ∧
      b₁.m_rules = a₁.m_rules ++ [(rule₁, d₁)] ∧
      b₂.m_rules = a₂.m_rules ++ [(rule₂, d₂)] ∧
      d₁ = (f.GetLayer : ℚ) * env.layer_base_priority +
        fmod key₁.m_priority env.layer_base_priority ∧
      d₂ = (f.GetLayer : ℚ) * env.layer_base_priority +
        fmod key₂.m_priority env.layer_base_priority ∧
      d₁ < d₂ := by
  have hst₁ := Aggregator.AggregateKeys_depthState env done₁ _ a₁ hrun₁
  have hst₂ := Aggregator.AggregateKeys_depthState env done₂ _ a₂ hrun₂
  simp only [Aggregator.depthState, Prod.mk.injEq, Aggregator.new_depthLayer,
    if_neg hnotTunnel] at hst₁ hst₂
  obtain ⟨hl₁, -, -⟩ := hst₁
  obtain ⟨hl₂, -, -⟩ := hst₂
  have hprio₁ : key₁.m_priority < 19000 := lt_trans hlt hprio
  have hd₁ : a₁.depthOf env key₁ = (f.GetLayer : ℚ) * env.layer_base_priority +
      fmod key₁.m_priority env.layer_base_priority := by
    simp [Aggregator.depthOf, IsTypeOf_fold_mask, IsTypeOf_caption_mask, IsTypeOf_area_mask,
      IsMiddleTunnel, hline₁, hl₁, hnotEmpty, hprio₁]
  have hd₂ : a₂.depthOf env key₂ = (f.GetLayer : ℚ) * env.layer_base_priority +
      fmod key₂.m_priority env.layer_base_priority := by
    simp [Aggregator.depthOf, IsTypeOf_fold_mask, IsTypeOf_caption_mask, IsTypeOf_area_mask,
      IsMiddleTunnel, hline₂, hl₂, hnotEmpty, hprio]
  refine ⟨_, _, _, _, Aggregator.ProcessKey_some env a₁ key₁ rule₁ hfind₁,
    Aggregator.ProcessKey_some env a₂ key₂ rule₂ hfind₂, rfl, rfl, hd₁, hd₂, ?_⟩
  rw [hd₁, hd₂]
  unfold fmod
  rw [hbucket]
  linarith

/-- C17 amended, at a concrete input: layer 2, layer base priority 2000 and
the line keys of priority 100 and 200, both in the first bucket. -/
theorem C17_fold_order_within_bucket_witness :
    ∃ b₁ b₂ d₁ d₂,
      Aggregator.ProcessKey sampleEnv
        (Aggregator.new sampleEnv (sampleFeature 2 0 0 0) EGeomType.GEOM_LINE 10 2)
        ⟨rule_type_t.line, 100⟩ = some b₁ ∧
      Aggregator.ProcessKey sampleEnv
        (Aggregator.new sampleEnv (sampleFeature 2 0 0 0) EGeomType.GEOM_LINE 10 2)
        ⟨rule_type_t.line, 200⟩ = some b₂ ∧
      b₁.m_rules =
        (Aggregator.new sampleEnv (sampleFeature 2 0 0 0) EGeomType.GEOM_LINE 10 2).m_rules ++
          [(plainRule, d₁)] ∧
      b₂.m_rules =
        (Aggregator.new sampleEnv (sampleFeature 2 0 0 0) EGeomType.GEOM_LINE 10 2).m_rules ++
          [(plainRule, d₂)] ∧
      d₁ = ((sampleFeature 2 0 0 0).GetLayer : ℚ) * sampleEnv.layer_base_priority +
        fmod 100 sampleEnv.layer_base_priority ∧
      d₂ = ((sampleFeature 2 0 0 0).GetLayer : ℚ) * sampleEnv.layer_base_priority +
        fmod 200 sampleEnv.layer_base_priority ∧
      d₁ < d₂ :=
  C17_fold_order_within_bucket sampleEnv (sampleFeature 2 0 0 0) EGeomType.GEOM_LINE 10 2
    [] [] _ _ ⟨rule_type_t.line, 100⟩ ⟨rule_type_t.line, 200⟩ plainRule plainRule rfl rfl
    (by decide) (by decide) rfl rfl (by norm_num) (by norm_num)
    (by
      rw [trunc_div_eq_zero _ _ (by norm_num) (by norm_num [sampleEnv]),
        trunc_div_eq_zero _ _ (by norm_num) (by norm_num [sampleEnv])])
    rfl rfl

/-- C18. Layer buckets do not interleave. With a layer base priority that is a
positive whole number, two features whose normalised layers are non-empty
and ordered `l1 < l2`, and a line or area key on each with a whole base
priority from 0 to below 19000 (so both keys are folded): when the priority
modifier of each feature lies between 0 and 1, the depth recorded on the
lower layer is at most the depth recorded on the higher layer. -/
theorem C18_layer_buckets_do_not_interleave (env : Env) (base : ℕ)
    (f₁ f₂ : FeatureType) (type₁ type₂ : EGeomType) (zoom₁ zoom₂ : Int)
    (keyCount₁ keyCount₂ : Nat) (done₁ done₂ : KeysT) (a₁ a₂ : Aggregator)
    (key₁ key₂ : Key) (p₁ p₂ : ℕ) (rule₁ rule₂ : BaseRule)
    (hbase : env.layer_base_priority = (base : ℚ)) (hpos : 0 < base)
    (hrun₁ : Aggregator.AggregateKeys env (Aggregator.new env f₁ type₁ zoom₁ keyCount₁) done₁
      = some a₁)
    (hrun₂ : Aggregator.AggregateKeys env (Aggregator.new env f₂ type₂ zoom₂ keyCount₂) done₂
      = some a₂)
    (hnotTunnel₁ : f₁.GetLayer ≠ env.LAYER_TRANSPARENT_TUNNEL)
    (hnotEmpty₁ : f₁.GetLayer ≠ env.LAYER_EMPTY)
    (hnotTunnel₂ : f₂.GetLayer ≠ env.LAYER_TRANSPARENT_TUNNEL)
    (hnotEmpty₂ : f₂.GetLayer ≠ env.LAYER_EMPTY)
    (hlayers : f₁.GetLayer < f₂.GetLayer)
    (hcat₁ : key₁.m_type = rule_type_t.line ∨ key₁.m_type = rule_type_t.area)
    (hcat₂ : key₂.m_type = rule_type_t.line ∨ key₂.m_type = rule_type_t.area)
    (hp₁ : key₁.m_priority = (p₁ : ℚ)) (hp₂ : key₂.m_priority = (p₂ : ℚ))
    (hlt₁ : key₁.m_priority < 19000) (hlt₂ : key₂.m_priority < 19000)
    (hmod₁ : 0 ≤ (Aggregator.new env f₁ type₁ zoom₁ keyCount₁).m_priorityModifier ∧
      (Aggregator.new env f₁ type₁ zoom₁ keyCount₁).m_priorityModifier ≤ 1)
    (hmod₂ : 0 ≤ (Aggregator.new env f₂ type₂ zoom₂ keyCount₂).m_priorityModifier ∧
      (Aggregator.new env f₂ type₂ zoom₂ keyCount₂).m_priorityModifier ≤ 1)
    (hfind₁ : env.Find key₁ = some rule₁)
    (hfind₂ : env.Find key₂ = some rule₂) :
    ∃ b₁ b₂ d₁ d₂,
      Aggregator.ProcessKey env a₁ key₁ = some b₁ ∧
      Aggregator.ProcessKey env a₂ key₂ = some b₂ ∧
      b₁.m_rules = a₁.m_rules ++ [(rule₁, d₁)] ∧
      b₂.m_rules = a₂.m_rules ++ [(rule₂, d₂)] ∧
      d₁ ≤ d₂ := by
  have hst₁ := Aggregator.AggregateKeys_depthState env done₁ _ a₁ hrun₁
  have hst₂ := Aggregator.AggregateKeys_depthState env done₂ _ a₂ hrun₂
  simp only [Aggregator.depthState, Prod.mk.injEq, Aggregator.new_depthLayer,
    if_neg hnotTunnel₁, if_neg hnotTunnel₂] at hst₁ hst₂
  obtain ⟨hl₁, hm₁, -⟩ := hst₁
  obtain ⟨hl₂, hm₂, -⟩ := hst₂
  rw [← hm₁] at hmod₁
  rw [← hm₂] at hmod₂
  -- the remainders lie between 0 and `base - 1`
  have hrem₁ : fmod key₁.m_priority env.layer_base_priority ≤ (base : ℚ) - 1 := by
    rw [hp₁, hbase, fmod_natCast p₁ base hpos]
    have h : p₁ % base + 1 ≤ base := Nat.succ_le_of_lt (Nat.mod_lt p₁ hpos)
    have h' : ((p₁ % base : ℕ) : ℚ) + 1 ≤ (base : ℚ) := by exact_mod_cast h
    linarith
  have hrem₂ : 0 ≤ fmod key₂.m_priority env.layer_base_priority := by
    rw [hp₂, hbase, fmod_natCast p₂ base hpos]
    positivity
  have hstep : ((f₁.GetLayer : ℚ) + 1) * (base : ℚ) ≤ (f₂.GetLayer : ℚ) * (base : ℚ) := by
    have h : f₁.GetLayer + 1 ≤ f₂.GetLayer := hlayers
    have h' : (f₁.GetLayer : ℚ) + 1 ≤ (f₂.GetLayer : ℚ) := by exact_mod_cast h
    have hb : (0 : ℚ) ≤ (base : ℚ) := by positivity
    exact mul_le_mul_of_nonneg_right h' hb
  -- the two recorded depths
  have hd₁ : a₁.depthOf env key₁ ≤ (f₁.GetLayer : ℚ) * env.layer_base_priority +
      fmod key₁.m_priority env.layer_base_priority := by
    rcases hcat₁ with h | h
    · simp [Aggregator.depthOf, IsTypeOf_fold_mask, IsTypeOf_caption_mask, IsTypeOf_area_mask,
        IsMiddleTunnel, h, hl₁, hnotEmpty₁, hlt₁]
    · simp [Aggregator.depthOf, IsTypeOf_fold_mask, IsTypeOf_caption_mask, IsTypeOf_area_mask,
        IsMiddleTunnel, h, hl₁, hnotEmpty₁, hlt₁]
      exact hmod₁.1
  have hd₂ : (f₂.GetLayer : ℚ) * env.layer_base_priority +
      fmod key₂.m_priority env.layer_base_priority - 1 ≤ a₂.depthOf env key₂ := by
    rcases hcat₂ with h | h
    · simp [Aggregator.depthOf, IsTypeOf_fold_mask, IsTypeOf_caption_mask, IsTypeOf_area_mask,
        IsMiddleTunnel, h, hl₂, hnotEmpty₂, hlt₂]
    · simp [Aggregator.depthOf, IsTypeOf_fold_mask, IsTypeOf_caption_mask, IsTypeOf_area_mask,
        IsMiddleTunnel, h, hl₂, hnotEmpty₂, hlt₂]
      linarith [hmod₂.2]
  refine ⟨_, _, _, _, Aggregator.ProcessKey_some env a₁ key₁ rule₁ hfind₁,
    Aggregator.ProcessKey_some env a₂ key₂ rule₂ hfind₂, rfl, rfl, ?_⟩
  rw [hbase] at hd₁ hd₂ hrem₁ hrem₂
  linarith

/-- C18, at a concrete input: layer base priority 2000, an area key of
priority 1999 on layer 1 and an area key of priority 0 on layer 2, each
feature with a limit rectangle of 1 by 1 (modifier 1). -/
theorem C18_layer_buckets_do_not_interleave_witness :
    ∃ b₁ b₂ d₁ d₂,
      Aggregator.ProcessKey sampleEnv
        (Aggregator.new sampleEnv (sampleFeature 1 0 1 1) EGeomType.GEOM_AREA 10 1)
        ⟨rule_type_t.area, 1999⟩ = some b₁ ∧
      Aggregator.ProcessKey sampleEnv
        (Aggregator.new sampleEnv (sampleFeature 2 0 1 1) EGeomType.GEOM_AREA 10 1)
        ⟨rule_type_t.area, 0⟩ = some b₂ ∧
      b₁.m_rules =
        (Aggregator.new sampleEnv (sampleFeature 1 0 1 1) EGeomType.GEOM_AREA 10 1).m_rules ++
          [(plainRule, d₁)] ∧
      b₂.m_rules =
        (Aggregator.new sampleEnv (sampleFeature 2 0 1 1) EGeomType.GEOM_AREA 10 1).m_rules ++
          [(plainRule, d₂)] ∧
      d₁ ≤ d₂ :=
  C18_layer_buckets_do_not_interleave sampleEnv 2000
    (sampleFeature 1 0 1 1) (sampleFeature 2 0 1 1) EGeomType.GEOM_AREA EGeomType.GEOM_AREA
    10 10 1 1 [] [] _ _ ⟨rule_type_t.area, 1999⟩ ⟨rule_type_t.area, 0⟩ 1999 0
    plainRule plainRule (by norm_num [sampleEnv]) (by decide) rfl rfl
    (by decide) (by decide) (by decide) (by decide) (by decide)
    (Or.inr rfl) (Or.inr rfl) (by norm_num) (by norm_num) (by norm_num) (by norm_num)
    (by
      have e : ¬ EGeomType.GEOM_AREA = EGeomType.GEOM_POINT := by decide
      norm_num [Aggregator.new, Aggregator.Init, sampleFeature, m2.RectD.SizeX,
        m2.RectD.SizeY, e])
    (by
      have e : ¬ EGeomType.GEOM_AREA = EGeomType.GEOM_POINT := by decide
      norm_num [Aggregator.new, Aggregator.Init, sampleFeature, m2.RectD.SizeX,
        m2.RectD.SizeY, e])
    rfl rfl

end df
